import Mathlib

/-!
Verification of the vte-ng control-sequence core (src/parser-glue.hh,
src/parser.hh, src/vteseq.cc) against its natural-language specification.

The C++ sources are shallowly embedded: each C++ function named below is
translated into a Lean definition of the same name (glib gboolean values
are embedded as `Int` with truthiness `≠ 0`, C `long`/`int` as `Int`,
unsigned indices as `Nat`).  Primitives from headers that are not part of
the sources (parser-arg.hh, attr.hh, vtedefines.hh) are modelled from the
spec and say so in their doc comments.
-/

/-- glib's `CLAMP(x, low, high)` macro: `x > high ? high : (x < low ? low : x)`. -/
def CLAMP (x low high : Int) : Int :=
  if x > high then high else if x < low then low else x

/-- Modelled from the spec: parser-arg.hh is not in the sources.  Spec §3:
an Argument is `{ value: optional<int 0..0xFFFF>, is_default: bool,
is_subparameter_continuation: bool }`; a default argument has no value
(`none` here) and reads back as the caller-supplied default. -/
structure Arg where
  value : Option Nat
  nonfinal : Bool
deriving DecidableEq, Repr

/-- Modelled from the spec (§3, §4.2): a default (unset) argument reads back
as the caller-supplied default value, an explicit argument as its value. -/
def vte_seq_arg_value (a : Arg) (default_v : Int) : Int :=
  match a.value with
  | none => default_v
  | some v => (v : Int)

/-- Modelled from the spec (§4.2): `is_nonfinal` is true iff more
sub-parameters follow in the same block. -/
def vte_seq_arg_nonfinal (a : Arg) : Bool :=
  a.nonfinal

/-- Modelled from the spec (§4.2): whether the argument is default (unset). -/
def vte_seq_arg_default (a : Arg) : Bool :=
  a.value.isNone

/-- Modelled from the spec (parser-glue.hh's doc of `collect1`): the value
only if the parameter is itself a final parameter, else the default. -/
def vte_seq_arg_value_final (a : Arg) (default_v : Int) : Int :=
  if a.nonfinal then default_v else vte_seq_arg_value a default_v

/-- The `vte::parser::Sequence`: the parsed-sequence view.  Only the argument
list matters for the claims below; `n_args` is `args.length`. -/
structure Sequence where
  args : List Arg
deriving DecidableEq, Repr

/-- The `Sequence::size()`: the number of parameters. -/
def Sequence.size (s : Sequence) : Nat :=
  s.args.length

/-- The `Sequence::param(idx, default_v)` (parser-glue.hh line 181): the value of
the parameter at `idx`, or the default if it is default-valued or out of
bounds. -/
def Sequence.param (s : Sequence) (idx : Nat) (default_v : Int) : Int :=
  if h : idx < s.size then vte_seq_arg_value (s.args.get ⟨idx, h⟩) default_v else default_v

/-- The `Sequence::param(idx, default_v, min_v, max_v)` (parser-glue.hh line 198):
as `param`, clamped with `std::min(std::max(v, min_v), max_v)`. -/
def Sequence.param4 (s : Sequence) (idx : Nat) (default_v min_v max_v : Int) : Int :=
  min (max (s.param idx default_v) min_v) max_v

/-- The `Sequence::param_nonfinal(idx)` (parser-glue.hh line 213): false when the
index is out of bounds. -/
def Sequence.param_nonfinal (s : Sequence) (idx : Nat) : Bool :=
  if h : idx < s.size then vte_seq_arg_nonfinal (s.args.get ⟨idx, h⟩) else false

/-- The `Sequence::param_default(idx)` (parser-glue.hh line 223): true when the
index is out of bounds. -/
def Sequence.param_default (s : Sequence) (idx : Nat) : Bool :=
  if h : idx < s.size then vte_seq_arg_default (s.args.get ⟨idx, h⟩) else true

theorem Sequence.param_nonfinal_lt {s : Sequence} {idx : Nat}
    (h : s.param_nonfinal idx = true) : idx < s.size := by
  by_contra hn
  simp [Sequence.param_nonfinal, dif_neg hn] at h

/-- The while loop of `Sequence::next` with an explicit structural bound:
`param_nonfinal` is false at and beyond `size()`, so the loop advances at
most `size - idx` times; `fuel` carries that bound. -/
def Sequence.nextAux (s : Sequence) (idx : Nat) (fuel : Nat) : Nat :=
  match fuel with
  | 0 => idx + 1
  | f + 1 => if s.param_nonfinal idx then s.nextAux (idx + 1) f else idx + 1

/-- The `Sequence::next(idx)` (parser-glue.hh line 233): skip over the non-final
parameters of the block at `idx` and return the index after the final one.
`Sequence.next_unfold` below shows this satisfies the source's recurrence
`next idx = if param_nonfinal idx then next (idx+1) else idx + 1`. -/
def Sequence.next (s : Sequence) (idx : Nat) : Nat :=
  s.nextAux idx (s.size - idx)

theorem Sequence.nextAux_congr (s : Sequence) (idx : Nat) (fuel : Nat)
    (h : s.size - idx ≤ fuel) : s.nextAux idx fuel = s.nextAux idx (s.size - idx) := by
  induction fuel generalizing idx with
  | zero =>
    have h0 : s.size - idx = 0 := by omega
    rw [h0]
  | succ f ih =>
    by_cases hnf : s.param_nonfinal idx = true
    · have hlt := Sequence.param_nonfinal_lt hnf
      have h1 : s.size - idx = (s.size - (idx + 1)) + 1 := by omega
      calc s.nextAux idx (f + 1) = s.nextAux (idx + 1) f := by
            simp [Sequence.nextAux, hnf]
        _ = s.nextAux (idx + 1) (s.size - (idx + 1)) := ih (idx + 1) (by omega)
        _ = s.nextAux idx ((s.size - (idx + 1)) + 1) := by
            simp [Sequence.nextAux, hnf]
        _ = s.nextAux idx (s.size - idx) := by rw [h1]
    · have hnf' : s.param_nonfinal idx = false := by
        revert hnf
        cases s.param_nonfinal idx <;> simp
      cases hsz : s.size - idx with
      | zero => simp [Sequence.nextAux, hnf']
      | succ m => simp [Sequence.nextAux, hnf']

theorem Sequence.next_unfold (s : Sequence) (idx : Nat) :
    s.next idx = if s.param_nonfinal idx then s.next (idx + 1) else idx + 1 := by
  by_cases hnf : s.param_nonfinal idx = true
  · have hlt := Sequence.param_nonfinal_lt hnf
    have h1 : s.size - idx = (s.size - (idx + 1)) + 1 := by omega
    simp only [Sequence.next, hnf, if_true, h1, Sequence.nextAux]
  · have hnf' : s.param_nonfinal idx = false := by
      revert hnf
      cases s.param_nonfinal idx <;> simp
    simp only [Sequence.next, hnf', if_false]
    cases hsz : s.size - idx <;> simp [Sequence.nextAux, hnf']

theorem Sequence.lt_nextAux (s : Sequence) (idx fuel : Nat) :
    idx < s.nextAux idx fuel := by
  induction fuel generalizing idx with
  | zero => simp [Sequence.nextAux]
  | succ f ih =>
    simp only [Sequence.nextAux]
    split
    · have := ih (idx + 1)
      omega
    · omega

theorem Sequence.lt_next (s : Sequence) (idx : Nat) : idx < s.next idx :=
  Sequence.lt_nextAux s idx (s.size - idx)

theorem Sequence.next_of_final {s : Sequence} {idx : Nat}
    (h : s.param_nonfinal idx = false) : s.next idx = idx + 1 := by
  rw [Sequence.next_unfold]
  simp [h]

theorem Sequence.next_of_ge {s : Sequence} {idx : Nat} (h : s.size ≤ idx) :
    s.next idx = idx + 1 := by
  apply Sequence.next_of_final
  by_contra hn
  have := Sequence.param_nonfinal_lt (by simpa using hn)
  omega

/-- The loop body of `Sequence::collect` (parser-glue.hh line 259): fill `n`
slots, each from the start of a consecutive parameter block; the second
component is the final index. -/
def Sequence.collectGo (s : Sequence) (idx : Nat) (n : Nat) (default_v : Int) :
    List Int × Nat :=
  match n with
  | 0 => ([], idx)
  | m + 1 =>
    let v := s.param idx default_v
    let r := s.collectGo (s.next idx) m default_v
    (v :: r.1, r.2)

/-- The `Sequence::collect(start_idx, params, default_v)` (parser-glue.hh line
259): fills the slots and returns `(idx - start_idx) == params.size()`. -/
def Sequence.collect (s : Sequence) (start_idx : Nat) (n : Nat) (default_v : Int) :
    List Int × Bool :=
  let r := s.collectGo start_idx n default_v
  (r.1, r.2 - start_idx == n)

/-- The `Sequence::collect1(idx, default_v)` (parser-glue.hh line 281). -/
def Sequence.collect1 (s : Sequence) (idx : Nat) (default_v : Int) : Int :=
  if h : idx < s.size then vte_seq_arg_value_final (s.args.get ⟨idx, h⟩) default_v else default_v

/-- The `Sequence::collect1(idx, default_v, min_v, max_v)` (parser-glue.hh line
298): clamped with `std::min(std::max(v, min_v), max_v)`. -/
def Sequence.collect14 (s : Sequence) (idx : Nat) (default_v min_v max_v : Int) : Int :=
  min (max (s.collect1 idx default_v) min_v) max_v

/-- The index of the start of the k-th consecutive parameter block counting
from `start` (k iterated applications of `Sequence.next`). -/
def Sequence.blockStart (s : Sequence) (start k : Nat) : Nat :=
  match k with
  | 0 => start
  | m + 1 => s.blockStart (s.next start) m

theorem Sequence.collectGo_snd (s : Sequence) (idx n : Nat) (d : Int) :
    (s.collectGo idx n d).2 = s.blockStart idx n := by
  induction n generalizing idx with
  | zero => rfl
  | succ m ih => simp [Sequence.collectGo, Sequence.blockStart, ih]

theorem Sequence.collectGo_fst (s : Sequence) (idx n : Nat) (d : Int) :
    (s.collectGo idx n d).1 = (List.range n).map (fun k => s.param (s.blockStart idx k) d) := by
  induction n generalizing idx with
  | zero => rfl
  | succ m ih =>
    simp [Sequence.collectGo, ih, List.range_succ_eq_map, Sequence.blockStart,
      Function.comp_def]

theorem Sequence.blockStart_ge (s : Sequence) (start k : Nat) :
    start + k ≤ s.blockStart start k := by
  induction k generalizing start with
  | zero => simp [Sequence.blockStart]
  | succ m ih =>
    have h1 := Sequence.lt_next s start
    have h2 := ih (s.next start)
    simp only [Sequence.blockStart]
    omega

theorem Sequence.next_of_nonfinal {s : Sequence} {idx : Nat}
    (h : s.param_nonfinal idx = true) : idx + 2 ≤ s.next idx := by
  rw [Sequence.next_unfold]
  simp only [h, if_true]
  have := Sequence.lt_next s (idx + 1)
  omega

theorem Sequence.blockStart_eq_iff (s : Sequence) (start n : Nat) :
    s.blockStart start n = start + n ↔
      ∀ k < n, s.param_nonfinal (s.blockStart start k) = false := by
  induction n generalizing start with
  | zero => simp [Sequence.blockStart]
  | succ m ih =>
    by_cases h : s.param_nonfinal start = true
    · constructor
      · intro heq
        exfalso
        have h2 := Sequence.next_of_nonfinal h
        have h3 := Sequence.blockStart_ge s (s.next start) m
        simp only [Sequence.blockStart] at heq
        omega
      · intro hall
        exfalso
        have := hall 0 (by omega)
        simp [Sequence.blockStart, h] at this
    · have h' : s.param_nonfinal start = false := by
        revert h
        cases s.param_nonfinal start <;> simp
      have hnext : s.next start = start + 1 := Sequence.next_of_final h'
      constructor
      · intro heq
        intro k hk
        match k with
        | 0 => simpa [Sequence.blockStart] using h'
        | j + 1 =>
          have heq' : s.blockStart (start + 1) m = (start + 1) + m := by
            simp only [Sequence.blockStart, hnext] at heq
            omega
          have := (ih (start + 1)).mp heq' j (by omega)
          simpa [Sequence.blockStart, hnext] using this
      · intro hall
        have heq' : s.blockStart (start + 1) m = (start + 1) + m := by
          apply (ih (start + 1)).mpr
          intro j hj
          have := hall (j + 1) (by omega)
          simpa [Sequence.blockStart, hnext] using this
        simp only [Sequence.blockStart, hnext]
        omega

/-- C6 counterexample sequence: the single parameter block `38:2` (a
nonfinal `38` followed by a final `2`). -/
def seqC6 : Sequence :=
  ⟨[⟨some 38, true⟩, ⟨some 2, false⟩]⟩

/-- C6: the claim states that `collect` returns true iff exactly N parameter
blocks were consumed starting at the start index.  On `38:2` with N = 1,
the loop consumes exactly one block (it ends exactly at the start of the
following block, `next 0`), fills the slot with 38, and yet returns false,
because the one block spanned two parameter slots. -/
theorem collect_C6_counterexample :
    (seqC6.collect 0 1 (-1)).1 = [38]
    ∧ (seqC6.collectGo 0 1 (-1)).2 = seqC6.next 0
    ∧ (seqC6.collect 0 1 (-1)).2 = false := by
  refine ⟨?_, ?_, ?_⟩ <;> decide

/-- C6 amended: `collect(s, slots, d)` fills the k-th slot with the value of
the parameter at the start of the k-th consecutive parameter block from the
start index (or d when that parameter is default-valued or out of range),
always consumes exactly N consecutive blocks, and returns true iff those N
blocks together consumed exactly N parameter slots, i.e. iff none of the N
collected parameters is a nonfinal subparameter. -/
theorem collect_C6_amended (s : Sequence) (start n : Nat) (d : Int) :
    (s.collect start n d).1
        = (List.range n).map (fun k => s.param (s.blockStart start k) d)
    ∧ (s.collectGo start n d).2 = s.blockStart start n
    ∧ ((s.collect start n d).2 = true ↔
        ∀ k < n, s.param_nonfinal (s.blockStart start k) = false) := by
  refine ⟨Sequence.collectGo_fst s start n d, Sequence.collectGo_snd s start n d, ?_⟩
  rw [← Sequence.blockStart_eq_iff]
  simp only [Sequence.collect, Sequence.collectGo_snd]
  have := Sequence.blockStart_ge s start n
  constructor
  · intro h
    have h' : s.blockStart start n - start = n := by simpa using h
    omega
  · intro h
    simp [h]

/-- C9: `Sequence::next(idx)` always returns an index strictly greater than
`idx`; for `idx` at or beyond `size()` (where `param_nonfinal` reports
false) it returns exactly `idx + 1`.  This strict increase is what makes
the SGR handler's `i = next(i)` iteration over parameter blocks terminate
(the recursions `sgr_loop` and `Sequence.next` below are accepted by the
termination checker on exactly this ground). -/
theorem next_C9 (s : Sequence) (idx : Nat) :
    idx < s.next idx ∧ (s.size ≤ idx → s.next idx = idx + 1) :=
  ⟨Sequence.lt_next s idx, fun h => Sequence.next_of_ge h⟩

theorem next_C9_witness :
    3 < (⟨[]⟩ : Sequence).next 3 ∧ (⟨[]⟩ : Sequence).next 3 = 3 + 1 :=
  ⟨(next_C9 ⟨[]⟩ 3).1, (next_C9 ⟨[]⟩ 3).2 (by decide)⟩

/-- The digit-accumulation loop of
`StringTokeniser::const_iterator::number` (parser-glue.hh lines 475-488):
reject a non-digit character, accumulate `v = v*10 + (c - '0')`, and fail
as soon as the accumulated value exceeds 0xffff. -/
def StringTokeniser.numberGo (cs : List Char) (v : Int) : Option Int :=
  match cs with
  | [] => some v
  | c :: rest =>
    if c < '0' ∨ '9' < c then none
    else
      let v' := v * 10 + ((c.toNat : Int) - ('0'.toNat : Int))
      if v' > 0xffff then none else StringTokeniser.numberGo rest v'

/-- The `StringTokeniser::const_iterator::number` (parser-glue.hh line 467) on
the current token: an empty token parses successfully to -1; otherwise the
digits are accumulated starting from 0. -/
def StringTokeniser.number (tok : List Char) : Option Int :=
  if tok.length = 0 then some (-1) else StringTokeniser.numberGo tok 0

/-- The decimal value of a digit string, accumulated left to right starting
from `v` (the mathematical value `numberGo` computes). -/
def decValueFrom (v : Int) (cs : List Char) : Int :=
  cs.foldl (fun a c => a * 10 + ((c.toNat : Int) - ('0'.toNat : Int))) v

theorem decValueFrom_ge (cs : List Char) (v : Int) (hv : 0 ≤ v)
    (hd : ∀ c ∈ cs, '0' ≤ c ∧ c ≤ '9') : v ≤ decValueFrom v cs := by
  induction cs generalizing v with
  | nil => simp [decValueFrom]
  | cons c rest ih =>
    have hc := hd c (by simp)
    have h48 : 48 ≤ c.toNat := by
      have h' := hc.1
      simp [Char.le_def] at h'
      exact h'
    have h0 : '0'.toNat = 48 := rfl
    have hstep : v ≤ v * 10 + ((c.toNat : Int) - ('0'.toNat : Int)) := by omega
    have hv' : 0 ≤ v * 10 + ((c.toNat : Int) - ('0'.toNat : Int)) := le_trans hv hstep
    have hrec := ih (v * 10 + ((c.toNat : Int) - ('0'.toNat : Int))) hv'
      (fun x hmem => hd x (by simp [hmem]))
    have hfold : decValueFrom v (c :: rest)
        = decValueFrom (v * 10 + ((c.toNat : Int) - ('0'.toNat : Int))) rest := rfl
    omega

theorem numberGo_digits (cs : List Char) (v : Int) (hv : 0 ≤ v) (hle : v ≤ 0xffff)
    (hd : ∀ c ∈ cs, '0' ≤ c ∧ c ≤ '9') :
    StringTokeniser.numberGo cs v =
      if decValueFrom v cs ≤ 0xffff then some (decValueFrom v cs) else none := by
  induction cs generalizing v with
  | nil =>
    simp [StringTokeniser.numberGo, decValueFrom, hle]
  | cons c rest ih =>
    have hc := hd c (by simp)
    have hnl : ¬(c < '0' ∨ '9' < c) := by
      push_neg
      exact hc
    have h48 : 48 ≤ c.toNat := by
      have h' := hc.1
      simp [Char.le_def] at h'
      exact h'
    have h0 : '0'.toNat = 48 := rfl
    have hv' : 0 ≤ v * 10 + ((c.toNat : Int) - ('0'.toNat : Int)) := by omega
    have hrest : ∀ x ∈ rest, '0' ≤ x ∧ x ≤ '9' := fun x hmem => hd x (by simp [hmem])
    have hfold : decValueFrom v (c :: rest)
        = decValueFrom (v * 10 + ((c.toNat : Int) - ('0'.toNat : Int))) rest := rfl
    simp only [StringTokeniser.numberGo, if_neg hnl]
    by_cases hov : v * 10 + ((c.toNat : Int) - ('0'.toNat : Int)) > 0xffff
    · have hge := decValueFrom_ge rest (v * 10 + ((c.toNat : Int) - ('0'.toNat : Int))) hv' hrest
      rw [if_pos hov, hfold, if_neg (by omega)]
    · rw [if_neg hov, hfold]
      exact ih (v * 10 + ((c.toNat : Int) - ('0'.toNat : Int))) hv' (by omega) hrest

theorem numberGo_nondigit (cs : List Char) (v : Int)
    (hd : ∃ c ∈ cs, c < '0' ∨ '9' < c) :
    StringTokeniser.numberGo cs v = none := by
  induction cs generalizing v with
  | nil => simp at hd
  | cons c rest ih =>
    by_cases hc : c < '0' ∨ '9' < c
    · simp [StringTokeniser.numberGo, hc]
    · have hrest : ∃ x ∈ rest, x < '0' ∨ '9' < x := by
        rcases hd with ⟨x, hmem, hx⟩
        rcases List.mem_cons.mp hmem with heq | hmem'
        · exact absurd (heq ▸ hx) hc
        · exact ⟨x, hmem', hx⟩
      simp only [StringTokeniser.numberGo, if_neg hc]
      split
      · rfl
      · exact ih _ hrest

/-- C8: `StringTokeniser::const_iterator::number` — the empty token parses
successfully to -1; a token with any non-digit character fails; a nonempty
all-digit token succeeds with its decimal value when that value stays
within 0xFFFF, and fails when it exceeds 0xFFFF. -/
theorem number_C8 (tok : List Char) :
    StringTokeniser.number [] = some (-1)
    ∧ ((∃ c ∈ tok, c < '0' ∨ '9' < c) → StringTokeniser.number tok = none)
    ∧ (tok ≠ [] → (∀ c ∈ tok, '0' ≤ c ∧ c ≤ '9') → decValueFrom 0 tok ≤ 0xffff →
        StringTokeniser.number tok = some (decValueFrom 0 tok))
    ∧ (tok ≠ [] → (∀ c ∈ tok, '0' ≤ c ∧ c ≤ '9') → 0xffff < decValueFrom 0 tok →
        StringTokeniser.number tok = none) := by
  refine ⟨by simp [StringTokeniser.number], ?_, ?_, ?_⟩
  · intro hd
    have hne : tok ≠ [] := by
      rcases hd with ⟨c, hmem, _⟩
      exact List.ne_nil_of_mem hmem
    have hlen : ¬ tok.length = 0 := by simpa [List.length_eq_zero] using hne
    simp only [StringTokeniser.number]
    rw [if_neg hlen]
    exact numberGo_nondigit tok 0 hd
  · intro hne hd hle
    have hlen : ¬ tok.length = 0 := by simpa [List.length_eq_zero] using hne
    simp only [StringTokeniser.number]
    rw [if_neg hlen, numberGo_digits tok 0 (by omega) (by omega) hd, if_pos hle]
  · intro hne hd hgt
    have hlen : ¬ tok.length = 0 := by simpa [List.length_eq_zero] using hne
    simp only [StringTokeniser.number]
    rw [if_neg hlen, numberGo_digits tok 0 (by omega) (by omega) hd, if_neg (by omega)]

theorem number_C8_witness :
    StringTokeniser.number (['6', '5', '5', '3', '5'] : List Char) = some 65535
    ∧ StringTokeniser.number (['6', '5', '5', '3', '6'] : List Char) = none
    ∧ StringTokeniser.number (['4', 'x'] : List Char) = none := by
  refine ⟨?_, ?_, ?_⟩
  · have h := (number_C8 ['6', '5', '5', '3', '5']).2.2.1 (by decide) (by decide) (by decide)
    simpa [decValueFrom] using h
  · exact (number_C8 ['6', '5', '5', '3', '6']).2.2.2 (by decide) (by decide) (by decide)
  · exact (number_C8 ['4', 'x']).2.1 (by decide)

/-- Modelled from the spec: vtedefines.hh is not in the sources.  The legacy
palette offset, bright offset and default fore/background indices are only
required to be fixed distinct colour codes (spec §4.6). -/
def VTE_LEGACY_COLORS_OFFSET : Int := 512

/-- Modelled from the spec (see `VTE_LEGACY_COLORS_OFFSET`). -/
def VTE_COLOR_BRIGHT_OFFSET : Int := 8

/-- Modelled from the spec (see `VTE_LEGACY_COLORS_OFFSET`). -/
def VTE_DEFAULT_FG : Int := 256

/-- Modelled from the spec (see `VTE_LEGACY_COLORS_OFFSET`). -/
def VTE_DEFAULT_BG : Int := 257

/-- Modelled from the spec: attr.hh's `VTE_RGB_COLOR` packing macro is not in
the sources.  The spec only requires a deterministic packing of the three
components (truncated to the given bit widths) distinguished from palette
indices; modelled as a marker bit plus the bit-truncated components. -/
def VTE_RGB_COLOR (redbits greenbits bluebits : Nat) (red green blue : Int) : Int :=
  2 ^ 31 + (red.toNat % 2 ^ redbits) * 2 ^ (greenbits + bluebits)
    + (green.toNat % 2 ^ greenbits) * 2 ^ bluebits + (blue.toNat % 2 ^ bluebits)

/-- The source's 8-bit range test `(v & 0xff) == v` (vteseq.cc lines
1453-1455, 1488-1490, 1501): for two's-complement `int` this holds exactly
when `v mod 256 = v`, i.e. `0 ≤ v ≤ 255`. -/
def is_u8 (v : Int) : Bool :=
  v.emod 256 == v

theorem is_u8_iff (v : Int) : is_u8 v = true ↔ 0 ≤ v ∧ v ≤ 255 := by
  constructor
  · intro h
    have h' : v.emod 256 = v := by simpa [is_u8] using h
    have h1 : 0 ≤ v.emod 256 := Int.emod_nonneg v (by decide)
    have h2 : v.emod 256 < 256 := Int.emod_lt_of_pos v (by decide)
    omega
  · intro ⟨h1, h2⟩
    simp only [is_u8, beq_iff_eq]
    exact Int.emod_eq_of_lt h1 (by omega)

/-- The `VteTerminalPrivate::seq_parse_sgr_color<redbits, greenbits, bluebits>`
(vteseq.cc lines 1427-1511).  The C++ returns a bool and passes `idx` and
`color` by reference; here the result is `(parsed colour?, final idx)`. -/
def seq_parse_sgr_color (redbits greenbits bluebits : Nat) (s : Sequence) (idx : Nat) :
    Option Int × Nat :=
  if s.param_nonfinal idx then
    -- Colon version: switch (seq.param(++idx))
    let idx1 := idx + 1
    if s.param idx1 (-1) = 2 then
      let n := s.next idx1 - idx1
      if n < 4 then (none, idx1)
      else
        -- when n > 4, consume a colourspace parameter; it must be default
        let idx2 := if n > 4 then idx1 + 1 else idx1
        if n > 4 ∧ s.param_default (idx1 + 1) = false then (none, idx1 + 1)
        else
          let red := s.param (idx2 + 1) (-1)
          let green := s.param (idx2 + 2) (-1)
          let blue := s.param (idx2 + 3) (-1)
          if is_u8 red ∧ is_u8 green ∧ is_u8 blue then
            (some (VTE_RGB_COLOR redbits greenbits bluebits red green blue), idx2 + 3)
          else (none, idx2 + 3)
    else if s.param idx1 (-1) = 5 then
      let n := s.next idx1 - idx1
      if n < 2 then (none, idx1)
      else
        let v := s.param (idx1 + 1) (-1)
        if v < 0 ∨ 256 ≤ v then (none, idx1 + 1) else (some v, idx1 + 1)
    else (none, idx1)
  else
    -- Semicolon version: idx = seq.next(idx); switch (seq.param(idx))
    let idx1 := s.next idx
    if s.param idx1 (-1) = 2 then
      -- consume 3 more parameters
      let idx2 := s.next idx1
      let red := s.param idx2 (-1)
      let idx3 := s.next idx2
      let green := s.param idx3 (-1)
      let idx4 := s.next idx3
      let blue := s.param idx4 (-1)
      if is_u8 red ∧ is_u8 green ∧ is_u8 blue then
        (some (VTE_RGB_COLOR redbits greenbits bluebits red green blue), idx4)
      else (none, idx4)
    else if s.param idx1 (-1) = 5 then
      -- consume 1 more parameter
      let idx2 := s.next idx1
      let v := s.param idx2 (-1)
      if is_u8 v then (some v, idx2) else (none, idx2)
    else (none, idx1)

/-- The text-attribute fields of `VteCellAttr` relevant to SGR.  Modelled
from the spec where attr.hh is missing: plain fields written by the
`set_*` accessors the SGR handler calls. -/
structure Attr where
  bold : Bool
  dim : Bool
  italic : Bool
  underline : Int
  blink : Bool
  reverse : Bool
  invisible : Bool
  strikethrough : Bool
  overline : Bool
  fore : Int
  back : Int
  deco : Int
deriving DecidableEq, Repr

/-- Modelled from the spec (§4.6): SGR 0 / default resets all attributes to
the terminal's power-on defaults. -/
def default_attr : Attr :=
  ⟨false, false, false, 0, false, false, false, false, false,
    VTE_DEFAULT_FG, VTE_DEFAULT_BG, VTE_DEFAULT_FG⟩

/-- The state the SGR handler mutates: the attributes of `m_defaults`,
`m_color_defaults` and `m_fill_defaults` (vteseq.cc lines 4797-4928). -/
structure SgrState where
  m_defaults : Attr
  m_color_defaults : Attr
  m_fill_defaults : Attr
deriving DecidableEq, Repr

/-- Modelled from the spec (§4.6): `reset_default_attributes` (defined in
vte.cc, not in the sources) resets the current attributes to the defaults. -/
def reset_default_attributes (st : SgrState) : SgrState :=
  { st with m_defaults := default_attr }

/-- The `VteCellAttr::copy_colors` (spec §4.6): copy only the colour fields. -/
def Attr.copy_colors (dst src : Attr) : Attr :=
  { dst with fore := src.fore, back := src.back, deco := src.deco }

/-- The state effect of one arm of the `switch (param)` in
`VteTerminalPrivate::SGR` (vteseq.cc lines 4811-4923). -/
def sgr_step_attr (s : Sequence) (i : Nat) (st : SgrState) : SgrState :=
  let param := s.param i (-1)
  if param = -1 ∨ param = 0 then reset_default_attributes st
  else if param = 1 then { st with m_defaults := { st.m_defaults with bold := true } }
  else if param = 2 then { st with m_defaults := { st.m_defaults with dim := true } }
  else if param = 3 then { st with m_defaults := { st.m_defaults with italic := true } }
  else if param = 4 then
    let v := if s.param_nonfinal i then s.param4 (i + 1) 1 0 3 else 1
    { st with m_defaults := { st.m_defaults with underline := v } }
  else if param = 5 then { st with m_defaults := { st.m_defaults with blink := true } }
  else if param = 7 then { st with m_defaults := { st.m_defaults with reverse := true } }
  else if param = 8 then { st with m_defaults := { st.m_defaults with invisible := true } }
  else if param = 9 then { st with m_defaults := { st.m_defaults with strikethrough := true } }
  else if param = 21 then { st with m_defaults := { st.m_defaults with underline := 2 } }
  else if param = 22 then
    { st with m_defaults := { st.m_defaults with bold := false, dim := false } }
  else if param = 23 then { st with m_defaults := { st.m_defaults with italic := false } }
  else if param = 24 then { st with m_defaults := { st.m_defaults with underline := 0 } }
  else if param = 25 then { st with m_defaults := { st.m_defaults with blink := false } }
  else if param = 27 then { st with m_defaults := { st.m_defaults with reverse := false } }
  else if param = 28 then { st with m_defaults := { st.m_defaults with invisible := false } }
  else if param = 29 then
    { st with m_defaults := { st.m_defaults with strikethrough := false } }
  else if 30 ≤ param ∧ param ≤ 37 then
    { st with m_defaults :=
        { st.m_defaults with fore := VTE_LEGACY_COLORS_OFFSET + (param - 30) } }
  else if param = 38 then
    match (seq_parse_sgr_color 8 8 8 s i).1 with
    | some fore => { st with m_defaults := { st.m_defaults with fore := fore } }
    | none => st
  else if param = 39 then
    { st with m_defaults := { st.m_defaults with fore := VTE_DEFAULT_FG } }
  else if 40 ≤ param ∧ param ≤ 47 then
    { st with m_defaults :=
        { st.m_defaults with back := VTE_LEGACY_COLORS_OFFSET + (param - 40) } }
  else if param = 48 then
    match (seq_parse_sgr_color 8 8 8 s i).1 with
    | some back => { st with m_defaults := { st.m_defaults with back := back } }
    | none => st
  else if param = 49 then
    { st with m_defaults := { st.m_defaults with back := VTE_DEFAULT_BG } }
  else if param = 53 then { st with m_defaults := { st.m_defaults with overline := true } }
  else if param = 55 then { st with m_defaults := { st.m_defaults with overline := false } }
  else if param = 58 then
    match (seq_parse_sgr_color 4 5 4 s i).1 with
    | some deco => { st with m_defaults := { st.m_defaults with deco := deco } }
    | none => st
  else if param = 59 then
    { st with m_defaults := { st.m_defaults with deco := VTE_DEFAULT_FG } }
  else if 90 ≤ param ∧ param ≤ 97 then
    { st with m_defaults :=
        { st.m_defaults with
          fore := VTE_LEGACY_COLORS_OFFSET + (param - 90) + VTE_COLOR_BRIGHT_OFFSET } }
  else if 100 ≤ param ∧ param ≤ 107 then
    { st with m_defaults :=
        { st.m_defaults with
          back := VTE_LEGACY_COLORS_OFFSET + (param - 100) + VTE_COLOR_BRIGHT_OFFSET } }
  else st


/-- The by-reference advance of the loop index `i` performed by the colour
cases 38/48/58 of the SGR switch (all other cases leave `i` unchanged). -/
def sgr_step_idx (s : Sequence) (i : Nat) : Nat :=
  if s.param i (-1) = 38 ∨ s.param i (-1) = 48 then (seq_parse_sgr_color 8 8 8 s i).2
  else if s.param i (-1) = 58 then (seq_parse_sgr_color 4 5 4 s i).2
  else i

theorem seq_parse_sgr_color_idx_ge (redbits greenbits bluebits : Nat) (s : Sequence)
    (idx : Nat) : idx ≤ (seq_parse_sgr_color redbits greenbits bluebits s idx).2 := by
  unfold seq_parse_sgr_color
  have h1 := Sequence.lt_next s idx
  split
  · simp only
    split_ifs <;> simp <;> omega
  · have h2 := Sequence.lt_next s (s.next idx)
    have h3 := Sequence.lt_next s (s.next (s.next idx))
    have h4 := Sequence.lt_next s (s.next (s.next (s.next idx)))
    simp only
    split_ifs <;> simp <;> omega

theorem seq_parse_sgr_color_snd_congr (a b c a' b' c' : Nat) (s : Sequence) (idx : Nat) :
    (seq_parse_sgr_color a b c s idx).2 = (seq_parse_sgr_color a' b' c' s idx).2 := by
  unfold seq_parse_sgr_color
  split <;> (simp only; split_ifs <;> rfl)

theorem sgr_step_idx_ge (s : Sequence) (i : Nat) : i ≤ sgr_step_idx s i := by
  have h38 := seq_parse_sgr_color_idx_ge 8 8 8 s i
  have h58 := seq_parse_sgr_color_idx_ge 4 5 4 s i
  unfold sgr_step_idx
  split_ifs with hcase1 hcase2
  · exact h38
  · exact h58
  · exact Nat.le_refl i

/-- The parameter loop of `VteTerminalPrivate::SGR` with an explicit
structural bound: the loop index strictly increases each iteration, so at
most `size - i` iterations remain; `fuel` carries that bound. -/
def sgr_loopAux (s : Sequence) (i : Nat) (st : SgrState) (fuel : Nat) : SgrState :=
  match fuel with
  | 0 => st
  | f + 1 =>
    if i < s.size then sgr_loopAux s (s.next (sgr_step_idx s i)) (sgr_step_attr s i st) f
    else st

/-- The parameter loop of `VteTerminalPrivate::SGR` (vteseq.cc line 4811):
`for (unsigned int i = 0; i < n_params; i = seq.next(i))`, where the body
may advance `i` further through `seq_parse_sgr_color`'s by-reference
index.  `sgr_loop_unfold` below shows this satisfies the source's loop
recurrence. -/
def sgr_loop (s : Sequence) (i : Nat) (st : SgrState) : SgrState :=
  sgr_loopAux s i st (s.size - i)

theorem sgr_loopAux_congr (s : Sequence) (fuel fuel' : Nat) (i : Nat) (st : SgrState)
    (h : s.size - i ≤ fuel) (h' : s.size - i ≤ fuel') :
    sgr_loopAux s i st fuel = sgr_loopAux s i st fuel' := by
  induction fuel generalizing fuel' i st with
  | zero =>
    have hge : ¬ i < s.size := by omega
    cases fuel' <;> simp [sgr_loopAux, hge]
  | succ f ih =>
    by_cases hlt : i < s.size
    · cases fuel' with
      | zero => omega
      | succ f' =>
        have hidx := sgr_step_idx_ge s i
        have hnext := Sequence.lt_next s (sgr_step_idx s i)
        simp only [sgr_loopAux, hlt, if_true]
        exact ih _ _ _ (by omega) (by omega)
    · cases fuel' <;> simp [sgr_loopAux, hlt]

theorem sgr_loop_unfold (s : Sequence) (i : Nat) (st : SgrState) :
    sgr_loop s i st =
      if i < s.size then sgr_loop s (s.next (sgr_step_idx s i)) (sgr_step_attr s i st)
      else st := by
  by_cases hlt : i < s.size
  · have hidx := sgr_step_idx_ge s i
    have hnext := Sequence.lt_next s (sgr_step_idx s i)
    have h1 : s.size - i = (s.size - i - 1) + 1 := by omega
    rw [if_pos hlt]
    unfold sgr_loop
    rw [h1]
    simp only [sgr_loopAux]
    rw [if_pos hlt]
    exact sgr_loopAux_congr s _ _ _ _ (by omega) (by omega)
  · have h0 : s.size - i = 0 := by omega
    rw [if_neg hlt]
    unfold sgr_loop
    rw [h0]
    rfl

theorem sgr_loop_end (s : Sequence) (i : Nat) (st : SgrState) (h : ¬ i < s.size) :
    sgr_loop s i st = st := by
  rw [sgr_loop_unfold]
  simp [h]

theorem sgr_loop_step (s : Sequence) (i : Nat) (st : SgrState) (h : i < s.size) :
    sgr_loop s i st = sgr_loop s (s.next (sgr_step_idx s i)) (sgr_step_attr s i st) := by
  rw [sgr_loop_unfold]
  simp [h]

/-- The `VteTerminalPrivate::SGR` (vteseq.cc lines 4797-4928): no parameters
reset to defaults; otherwise run the parameter loop, then copy the colour
fields into the colour/fill default cells. -/
def SGR (s : Sequence) (st : SgrState) : SgrState :=
  if s.size = 0 then reset_default_attributes st
  else
    let st' := sgr_loop s 0 st
    { st' with
      m_color_defaults := Attr.copy_colors st'.m_color_defaults st'.m_defaults,
      m_fill_defaults := Attr.copy_colors st'.m_fill_defaults st'.m_defaults }

/-- The `CSI 38;2;10;20;30 m`: the semicolon (de facto) true-colour form. -/
def seqC1_semi : Sequence :=
  ⟨[⟨some 38, false⟩, ⟨some 2, false⟩, ⟨some 10, false⟩, ⟨some 20, false⟩, ⟨some 30, false⟩]⟩

/-- The `CSI 38:2:10:20:30 m`: the colon form without a colorspace id. -/
def seqC1_colon : Sequence :=
  ⟨[⟨some 38, true⟩, ⟨some 2, true⟩, ⟨some 10, true⟩, ⟨some 20, true⟩, ⟨some 30, false⟩]⟩

/-- The `CSI 38:2::10:20:30 m`: the colon form with a default-valued colorspace
id subparameter. -/
def seqC1_colon_cs : Sequence :=
  ⟨[⟨some 38, true⟩, ⟨some 2, true⟩, ⟨none, true⟩, ⟨some 10, true⟩, ⟨some 20, true⟩,
    ⟨some 30, false⟩]⟩

/-- The `CSI 38:2:1:10:20:30 m`: the colon form with a non-default colorspace id. -/
def seqC1_colon_bad : Sequence :=
  ⟨[⟨some 38, true⟩, ⟨some 2, true⟩, ⟨some 1, true⟩, ⟨some 10, true⟩, ⟨some 20, true⟩,
    ⟨some 30, false⟩]⟩

/-- C1: for every terminal state, handling the SGR sequences `38;2;10;20;30`,
`38:2:10:20:30` and `38:2::10:20:30` sets the foreground colour attribute to
the identical value `VTE_RGB_COLOR 8 8 8 10 20 30`, while `38:2:1:10:20:30`
(non-default colorspace id) makes the colour parse fail and leaves the
foreground colour attribute unchanged. -/
theorem sgr_color_C1 (st : SgrState) :
    (SGR seqC1_semi st).m_defaults.fore = VTE_RGB_COLOR 8 8 8 10 20 30
    ∧ (SGR seqC1_colon st).m_defaults.fore = VTE_RGB_COLOR 8 8 8 10 20 30
    ∧ (SGR seqC1_colon_cs st).m_defaults.fore = VTE_RGB_COLOR 8 8 8 10 20 30
    ∧ (seq_parse_sgr_color 8 8 8 seqC1_colon_bad 0).1 = none
    ∧ (SGR seqC1_colon_bad st).m_defaults.fore = st.m_defaults.fore := by
  refine ⟨?_, ?_, ?_, by decide, ?_⟩ <;>
    simp +decide [SGR, sgr_loop, sgr_loopAux, sgr_step_attr, sgr_step_idx,
      seq_parse_sgr_color, Sequence.next, Sequence.nextAux, Sequence.param,
      Sequence.param_nonfinal, Sequence.param_default, Sequence.size,
      vte_seq_arg_value, vte_seq_arg_nonfinal, vte_seq_arg_default,
      vte_seq_arg_value_final, is_u8, seqC1_semi, seqC1_colon, seqC1_colon_cs,
      seqC1_colon_bad, Attr.copy_colors, reset_default_attributes]

/-- The RGB components a 2-subtype extended-colour specification at `idx`
reads, following exactly the index arithmetic of `seq_parse_sgr_color` in
both the colon and the semicolon grammar (`none` when the spec is not a
well-formed direct-colour spec reaching the component check). -/
def sgr_color_components (s : Sequence) (idx : Nat) : Option (Int × Int × Int) :=
  if s.param_nonfinal idx then
    let idx1 := idx + 1
    if s.param idx1 (-1) = 2 then
      let n := s.next idx1 - idx1
      if n < 4 then none
      else
        let idx2 := if n > 4 then idx1 + 1 else idx1
        if n > 4 ∧ s.param_default (idx1 + 1) = false then none
        else some (s.param (idx2 + 1) (-1), s.param (idx2 + 2) (-1), s.param (idx2 + 3) (-1))
    else none
  else
    let idx1 := s.next idx
    if s.param idx1 (-1) = 2 then
      let idx2 := s.next idx1
      let idx3 := s.next idx2
      let idx4 := s.next idx3
      some (s.param idx2 (-1), s.param idx3 (-1), s.param idx4 (-1))
    else none

theorem seq_parse_fail_of_bad_components (rb gb bb : Nat) (s : Sequence) (idx : Nat)
    (r g b : Int) (hc : sgr_color_components s idx = some (r, g, b))
    (hbad : ¬(is_u8 r = true ∧ is_u8 g = true ∧ is_u8 b = true)) :
    (seq_parse_sgr_color rb gb bb s idx).1 = none := by
  unfold sgr_color_components at hc
  unfold seq_parse_sgr_color
  split_ifs at hc ⊢ <;>
    first
      | rfl
      | (exfalso; simp at hc; done)
      | (simp_all
         try (split_ifs <;> first | rfl | simp_all))

theorem sgr_step_attr_color_fail (s : Sequence) (i : Nat) (st : SgrState)
    (hp : s.param i (-1) = 38 ∨ s.param i (-1) = 48 ∨ s.param i (-1) = 58)
    (h8 : (seq_parse_sgr_color 8 8 8 s i).1 = none)
    (h4 : (seq_parse_sgr_color 4 5 4 s i).1 = none) :
    sgr_step_attr s i st = st := by
  rcases hp with hp | hp | hp <;> simp [sgr_step_attr, hp, h8, h4]

/-- C2: for every SGR sequence with an extended-colour specification
(parameter 38, 48 or 58) whose red, green or blue component lies outside
0..255, that specification changes nothing (in particular the
corresponding colour attribute is unchanged), and the loop continues at
the parameter block following the colour spec, so every other parameter
block still has its normal effect. -/
theorem sgr_C2 (s : Sequence) (st : SgrState) (i : Nat) (r g b : Int)
    (hi : i < s.size)
    (hp : s.param i (-1) = 38 ∨ s.param i (-1) = 48 ∨ s.param i (-1) = 58)
    (hc : sgr_color_components s i = some (r, g, b))
    (hbad : ¬(is_u8 r = true ∧ is_u8 g = true ∧ is_u8 b = true)) :
    sgr_loop s i st = sgr_loop s (s.next (sgr_step_idx s i)) st := by
  rw [sgr_loop_step s i st hi]
  rw [sgr_step_attr_color_fail s i st hp
    (seq_parse_fail_of_bad_components 8 8 8 s i r g b hc hbad)
    (seq_parse_fail_of_bad_components 4 5 4 s i r g b hc hbad)]

/-- The `CSI 38;2;300;20;30;1 m`: red component out of range, followed by a
bold parameter block. -/
def seqC2 : Sequence :=
  ⟨[⟨some 38, false⟩, ⟨some 2, false⟩, ⟨some 300, false⟩, ⟨some 20, false⟩,
    ⟨some 30, false⟩, ⟨some 1, false⟩]⟩

theorem sgr_C2_witness :
    sgr_loop seqC2 0 ⟨default_attr, default_attr, default_attr⟩
      = sgr_loop seqC2 (seqC2.next (sgr_step_idx seqC2 0))
          ⟨default_attr, default_attr, default_attr⟩ :=
  sgr_C2 seqC2 ⟨default_attr, default_attr, default_attr⟩ 0 300 20 30
    (by decide) (by decide) (by decide) (by decide)

/-- The cursor/scrolling fields of `VteTerminalPrivate` (with the active
`VteScreen`'s cursor, insert_delta and ring flattened in): everything the
cursor-motion, DECSTBM and DSR handlers touch.  gboolean fields are `Int`
with truthiness `≠ 0`. -/
structure CursorTerm where
  m_row_count : Int
  m_column_count : Int
  cursor_row : Int
  cursor_col : Int
  insert_delta : Int
  ring_next : Int
  m_origin_mode : Int
  m_scrolling_restricted : Int
  m_scrolling_region_start : Int
  m_scrolling_region_end : Int
deriving DecidableEq, Repr

/-- The `VteTerminalPrivate::set_cursor_column` (vteseq.cc line 1005):
`cursor.col = CLAMP(col, 0, m_column_count - 1)`. -/
def set_cursor_column (st : CursorTerm) (col : Int) : CursorTerm :=
  { st with cursor_col := CLAMP col 0 (st.m_column_count - 1) }

/-- The `VteTerminalPrivate::set_cursor_column1` (vteseq.cc line 1011). -/
def set_cursor_column1 (st : CursorTerm) (col : Int) : CursorTerm :=
  set_cursor_column st (col - 1)

/-- The `VteTerminalPrivate::set_cursor_row` (vteseq.cc line 1024): the row is
relative to the scrolling region when origin mode and restricted scrolling
are both on; clamped, then offset by `insert_delta`. -/
def set_cursor_row (st : CursorTerm) (row : Int) : CursorTerm :=
  let start_row :=
    if st.m_origin_mode ≠ 0 ∧ st.m_scrolling_restricted ≠ 0
    then st.m_scrolling_region_start else 0
  let end_row :=
    if st.m_origin_mode ≠ 0 ∧ st.m_scrolling_restricted ≠ 0
    then st.m_scrolling_region_end else st.m_row_count - 1
  { st with cursor_row := CLAMP (row + start_row) start_row end_row + st.insert_delta }

/-- The `VteTerminalPrivate::set_cursor_row1` (vteseq.cc line 1042). -/
def set_cursor_row1 (st : CursorTerm) (row : Int) : CursorTerm :=
  set_cursor_row st (row - 1)

/-- The `VteTerminalPrivate::set_cursor_coords` (vteseq.cc line 1081): column
first, then row. -/
def set_cursor_coords (st : CursorTerm) (row col : Int) : CursorTerm :=
  set_cursor_row (set_cursor_column st col) row

/-- The `VteTerminalPrivate::set_cursor_coords1` (vteseq.cc line 1089). -/
def set_cursor_coords1 (st : CursorTerm) (row col : Int) : CursorTerm :=
  set_cursor_row1 (set_cursor_column1 st col) row

/-- The `VteTerminalPrivate::home_cursor` (vteseq.cc line 248). -/
def home_cursor (st : CursorTerm) : CursorTerm :=
  set_cursor_coords st 0 0

/-- The `while (_vte_ring_next(...) < insert_delta + m_row_count)
_vte_ring_insert(...)` loop of DECSTBM (vteseq.cc lines 3793-3794), with
the ring modelled by its next-index; `fuel` carries the loop bound. -/
def extend_ringAux (st : CursorTerm) (fuel : Nat) : CursorTerm :=
  match fuel with
  | 0 => st
  | f + 1 =>
    if st.ring_next < st.insert_delta + st.m_row_count
    then extend_ringAux { st with ring_next := st.ring_next + 1 } f
    else st

/-- The ring-extension loop of DECSTBM (see `extend_ringAux`). -/
def extend_ring (st : CursorTerm) : CursorTerm :=
  extend_ringAux st (st.insert_delta + st.m_row_count - st.ring_next).toNat

/-- The `VteTerminalPrivate::DECSTBM` (vteseq.cc lines 3715-3798): collect
top/bottom, default to 1 and `m_row_count`, bail (clearing the restriction
and homing the cursor) on garbage, clamp the bottom, set the region, clear
the restriction again when the region covers the full screen (extending
the ring otherwise), and home the cursor. -/
def DECSTBM (s : Sequence) (st : CursorTerm) : CursorTerm :=
  let start0 := (s.collect 0 2 (-1)).1.getD 0 (-1)
  let end0 := (s.collect 0 2 (-1)).1.getD 1 (-1)
  let start := if start0 = -1 then 1 else start0
  let end1 := if end0 = -1 then st.m_row_count else end0
  if start < 1 ∨ start > st.m_row_count ∨ end1 < start + 1 then
    home_cursor { st with m_scrolling_restricted := 0 }
  else
    let end2 := if end1 > st.m_row_count then st.m_row_count else end1
    let st1 := { st with
      m_scrolling_region_start := start - 1,
      m_scrolling_region_end := end2 - 1,
      m_scrolling_restricted := 1 }
    let st2 :=
      if st1.m_scrolling_region_start = 0 ∧ st1.m_scrolling_region_end = st1.m_row_count - 1
      then { st1 with m_scrolling_restricted := 0 }
      else extend_ring st1
    home_cursor st2

theorem extend_ringAux_cursor (st : CursorTerm) (fuel : Nat) :
    (extend_ringAux st fuel).cursor_row = st.cursor_row
    ∧ (extend_ringAux st fuel).cursor_col = st.cursor_col
    ∧ (extend_ringAux st fuel).m_row_count = st.m_row_count
    ∧ (extend_ringAux st fuel).m_column_count = st.m_column_count
    ∧ (extend_ringAux st fuel).insert_delta = st.insert_delta
    ∧ (extend_ringAux st fuel).m_origin_mode = st.m_origin_mode
    ∧ (extend_ringAux st fuel).m_scrolling_restricted = st.m_scrolling_restricted
    ∧ (extend_ringAux st fuel).m_scrolling_region_start = st.m_scrolling_region_start
    ∧ (extend_ringAux st fuel).m_scrolling_region_end = st.m_scrolling_region_end := by
  induction fuel generalizing st with
  | zero => simp [extend_ringAux]
  | succ f ih =>
    simp only [extend_ringAux]
    split
    · exact ih _
    · simp

theorem home_cursor_fields (st : CursorTerm) :
    (home_cursor st).m_scrolling_restricted = st.m_scrolling_restricted
    ∧ (home_cursor st).m_scrolling_region_start = st.m_scrolling_region_start
    ∧ (home_cursor st).m_scrolling_region_end = st.m_scrolling_region_end
    ∧ (home_cursor st).m_row_count = st.m_row_count
    ∧ (home_cursor st).m_column_count = st.m_column_count
    ∧ (home_cursor st).insert_delta = st.insert_delta
    ∧ (home_cursor st).m_origin_mode = st.m_origin_mode :=
  ⟨rfl, rfl, rfl, rfl, rfl, rfl, rfl⟩

theorem home_cursor_idem (st : CursorTerm) :
    home_cursor (home_cursor st) = home_cursor st := rfl

/-- The defaulting of DECSTBM's first parameter (vteseq.cc lines 3765-3766):
missing top becomes 1. -/
def decstbm_top (s : Sequence) : Int :=
  if (s.collect 0 2 (-1)).1.getD 0 (-1) = -1 then 1 else (s.collect 0 2 (-1)).1.getD 0 (-1)

/-- The defaulting of DECSTBM's second parameter (vteseq.cc lines 3767-3768):
missing bottom becomes the row count. -/
def decstbm_bottom (s : Sequence) (st : CursorTerm) : Int :=
  if (s.collect 0 2 (-1)).1.getD 1 (-1) = -1 then st.m_row_count
  else (s.collect 0 2 (-1)).1.getD 1 (-1)

/-- C3: DECSTBM after defaulting (missing top → 1, missing bottom → R):
invalid bounds (top < 1, top > R, or bottom < top+1) clear the scrolling
restriction; a defaulted, clamped region covering the full screen (top = 1
and bottom ≥ R) likewise clears it; otherwise the region becomes
[top-1, min(bottom,R)-1] with the restriction set; and in every case the
cursor ends at the home position (homing the result is a fixed point). -/
theorem DECSTBM_C3 (s : Sequence) (st : CursorTerm) :
    ((decstbm_top s < 1 ∨ decstbm_top s > st.m_row_count
        ∨ decstbm_bottom s st < decstbm_top s + 1) →
      (DECSTBM s st).m_scrolling_restricted = 0)
    ∧ (¬(decstbm_top s < 1 ∨ decstbm_top s > st.m_row_count
        ∨ decstbm_bottom s st < decstbm_top s + 1) →
      ((decstbm_top s = 1 ∧ st.m_row_count ≤ decstbm_bottom s st →
         (DECSTBM s st).m_scrolling_restricted = 0)
       ∧ (¬(decstbm_top s = 1 ∧ st.m_row_count ≤ decstbm_bottom s st) →
         (DECSTBM s st).m_scrolling_restricted = 1
         ∧ (DECSTBM s st).m_scrolling_region_start = decstbm_top s - 1
         ∧ (DECSTBM s st).m_scrolling_region_end
             = min (decstbm_bottom s st) st.m_row_count - 1)))
    ∧ home_cursor (DECSTBM s st) = DECSTBM s st := by
  by_cases hbail : decstbm_top s < 1 ∨ decstbm_top s > st.m_row_count
      ∨ decstbm_bottom s st < decstbm_top s + 1
  · have hD : DECSTBM s st = home_cursor { st with m_scrolling_restricted := 0 } := by
      unfold DECSTBM
      rw [if_pos (by simpa [decstbm_top, decstbm_bottom] using hbail)]
    refine ⟨fun _ => ?_, fun hn => absurd hbail hn, ?_⟩
    · rw [hD]
      exact (home_cursor_fields _).1
    · rw [hD, home_cursor_idem]
  · have hbail' : ¬((if (s.collect 0 2 (-1)).1.getD 0 (-1) = -1 then 1
        else (s.collect 0 2 (-1)).1.getD 0 (-1)) < 1
      ∨ (if (s.collect 0 2 (-1)).1.getD 0 (-1) = -1 then 1
        else (s.collect 0 2 (-1)).1.getD 0 (-1)) > st.m_row_count
      ∨ (if (s.collect 0 2 (-1)).1.getD 1 (-1) = -1 then st.m_row_count
        else (s.collect 0 2 (-1)).1.getD 1 (-1))
          < (if (s.collect 0 2 (-1)).1.getD 0 (-1) = -1 then 1
        else (s.collect 0 2 (-1)).1.getD 0 (-1)) + 1) := by
      simpa [decstbm_top, decstbm_bottom] using hbail
    have hmin : (if decstbm_bottom s st > st.m_row_count then st.m_row_count
        else decstbm_bottom s st) = min (decstbm_bottom s st) st.m_row_count := by
      split_ifs <;> omega
    have hD : DECSTBM s st = home_cursor
        (if (min (decstbm_bottom s st) st.m_row_count - 1 = st.m_row_count - 1
              ∧ decstbm_top s = 1)
         then { st with
           m_scrolling_region_start := decstbm_top s - 1,
           m_scrolling_region_end := min (decstbm_bottom s st) st.m_row_count - 1,
           m_scrolling_restricted := 0 }
         else extend_ring { st with
           m_scrolling_region_start := decstbm_top s - 1,
           m_scrolling_region_end := min (decstbm_bottom s st) st.m_row_count - 1,
           m_scrolling_restricted := 1 }) := by
      unfold DECSTBM
      rw [if_neg hbail']
      rw [show (if (s.collect 0 2 (-1)).1.getD 0 (-1) = -1 then 1
        else (s.collect 0 2 (-1)).1.getD 0 (-1)) = decstbm_top s from rfl]
      rw [show (if (s.collect 0 2 (-1)).1.getD 1 (-1) = -1 then st.m_row_count
        else (s.collect 0 2 (-1)).1.getD 1 (-1)) = decstbm_bottom s st from rfl]
      rw [hmin]
      dsimp only
      by_cases hfull : decstbm_top s - 1 = 0
          ∧ min (decstbm_bottom s st) st.m_row_count - 1 = st.m_row_count - 1
      · rw [if_pos hfull, if_pos ⟨hfull.2, by omega⟩]
      · rw [if_neg hfull, if_neg (by omega)]
    refine ⟨fun h => absurd h hbail, fun _ => ⟨fun hfull => ?_, fun hnfull => ?_⟩, ?_⟩
    · rw [hD, if_pos (by omega)]
      exact (home_cursor_fields _).1
    · have hcond : ¬(min (decstbm_bottom s st) st.m_row_count - 1 = st.m_row_count - 1
          ∧ decstbm_top s = 1) := by
        omega
      rw [hD, if_neg hcond]
      refine ⟨?_, ?_, ?_⟩
      · rw [(home_cursor_fields _).1]
        exact ((extend_ringAux_cursor _ _).2.2.2.2.2.2.1)
      · rw [(home_cursor_fields _).2.1]
        exact ((extend_ringAux_cursor _ _).2.2.2.2.2.2.2.1)
      · rw [(home_cursor_fields _).2.2.1]
        exact ((extend_ringAux_cursor _ _).2.2.2.2.2.2.2.2)
    · rw [hD]
      split_ifs <;> exact home_cursor_idem _

/-- Concrete DECSTBM invocation `CSI 3;7 r` for the witness. -/
def seqC3 : Sequence := ⟨[⟨some 3, false⟩, ⟨some 7, false⟩]⟩

/-- A 24-row, 80-column terminal state with the cursor away from home. -/
def stC3 : CursorTerm := ⟨24, 80, 5, 5, 0, 24, 0, 0, 0, 23⟩

theorem DECSTBM_C3_witness :
    (DECSTBM seqC3 stC3).m_scrolling_restricted = 1
    ∧ (DECSTBM seqC3 stC3).m_scrolling_region_start = decstbm_top seqC3 - 1
    ∧ (DECSTBM seqC3 stC3).m_scrolling_region_end
        = min (decstbm_bottom seqC3 stC3) stC3.m_row_count - 1
    ∧ home_cursor (DECSTBM seqC3 stC3) = DECSTBM seqC3 stC3 := by
  have h := (DECSTBM_C3 seqC3 stC3).2.1 (by decide)
  exact ⟨(h.2 (by decide)).1, (h.2 (by decide)).2.1, (h.2 (by decide)).2.2,
    (DECSTBM_C3 seqC3 stC3).2.2⟩

/-- The `VteTerminalPrivate::CUP` (vteseq.cc lines 2395-2425): the first
parameter is the row, the second the column, both collected as final
parameters with default 1 and clamped into [1, row count]/[1, column
count]; then the cursor moves with `set_cursor_coords1`. -/
def CUP (s : Sequence) (st : CursorTerm) : CursorTerm :=
  let rowvalue := s.collect14 0 1 1 st.m_row_count
  let colvalue := s.collect14 (s.next 0) 1 1 st.m_column_count
  set_cursor_coords1 st rowvalue colvalue

theorem CLAMP_mem (x low high : Int) (h : low ≤ high) :
    low ≤ CLAMP x low high ∧ CLAMP x low high ≤ high := by
  unfold CLAMP
  split_ifs <;> omega

theorem collect14_mem (s : Sequence) (idx : Nat) (d min_v max_v : Int)
    (h : min_v ≤ max_v) :
    min_v ≤ s.collect14 idx d min_v max_v ∧ s.collect14 idx d min_v max_v ≤ max_v := by
  unfold Sequence.collect14
  constructor
  · have h1 : min_v ≤ max (s.collect1 idx d) min_v := le_max_right _ _
    exact le_min h1 h
  · exact min_le_right _ _

/-- The `CSI 1;1 H`. -/
def seqC7_11 : Sequence := ⟨[⟨some 1, false⟩, ⟨some 1, false⟩]⟩

/-- The `CSI 9999;9999 H`. -/
def seqC7_9999 : Sequence := ⟨[⟨some 9999, false⟩, ⟨some 9999, false⟩]⟩

/-- An 80×24 grid with origin mode off and no scrolling restriction. -/
def stC7 : CursorTerm := ⟨24, 80, 0, 0, 0, 24, 0, 0, 0, 23⟩

/-- C7: CUP with no parameters moves the cursor exactly like CUP 1;1; the
target row is clamped into [1, R] and the target column into [1, C]
before the move; on an 80×24 grid CUP 9999;9999 leaves the cursor at row
24, column 80 (0-based (23, 79)); and for every sequence the cursor ends
inside the grid (column in [0, C-1], row − insert_delta in [0, R-1]),
provided the grid is nonempty and, when origin mode and the restriction
are both active, the scrolling region lies inside the grid. -/
theorem CUP_C7 (s : Sequence) (st : CursorTerm)
    (hR : 1 ≤ st.m_row_count) (hC : 1 ≤ st.m_column_count)
    (hreg : st.m_origin_mode ≠ 0 ∧ st.m_scrolling_restricted ≠ 0 →
      0 ≤ st.m_scrolling_region_start
      ∧ st.m_scrolling_region_start ≤ st.m_scrolling_region_end
      ∧ st.m_scrolling_region_end ≤ st.m_row_count - 1) :
    CUP ⟨[]⟩ st = CUP seqC7_11 st
    ∧ (1 ≤ s.collect14 0 1 1 st.m_row_count
        ∧ s.collect14 0 1 1 st.m_row_count ≤ st.m_row_count)
    ∧ (1 ≤ s.collect14 (s.next 0) 1 1 st.m_column_count
        ∧ s.collect14 (s.next 0) 1 1 st.m_column_count ≤ st.m_column_count)
    ∧ (CUP seqC7_9999 stC7).cursor_row = 23 ∧ (CUP seqC7_9999 stC7).cursor_col = 79
    ∧ (0 ≤ (CUP s st).cursor_col ∧ (CUP s st).cursor_col ≤ st.m_column_count - 1
        ∧ 0 ≤ (CUP s st).cursor_row - st.insert_delta
        ∧ (CUP s st).cursor_row - st.insert_delta ≤ st.m_row_count - 1) := by
  refine ⟨rfl, collect14_mem s 0 1 1 st.m_row_count hR,
    collect14_mem s (s.next 0) 1 1 st.m_column_count hC, by decide, by decide, ?_⟩
  have hrow := collect14_mem s 0 1 1 st.m_row_count hR
  have hcol := collect14_mem s (s.next 0) 1 1 st.m_column_count hC
  unfold CUP set_cursor_coords1 set_cursor_row1 set_cursor_row
    set_cursor_column1 set_cursor_column
  dsimp only
  by_cases ho : st.m_origin_mode ≠ 0 ∧ st.m_scrolling_restricted ≠ 0
  · have hr := hreg ho
    rw [if_pos ho, if_pos ho]
    have hc1 := CLAMP_mem (s.collect14 (s.next 0) 1 1 st.m_column_count - 1)
      0 (st.m_column_count - 1) (by omega)
    have hc2 := CLAMP_mem
      (s.collect14 0 1 1 st.m_row_count - 1 + st.m_scrolling_region_start)
      st.m_scrolling_region_start st.m_scrolling_region_end (by omega)
    refine ⟨by omega, by omega, by omega, by omega⟩
  · rw [if_neg ho, if_neg ho]
    have hc1 := CLAMP_mem (s.collect14 (s.next 0) 1 1 st.m_column_count - 1)
      0 (st.m_column_count - 1) (by omega)
    have hc2 := CLAMP_mem (s.collect14 0 1 1 st.m_row_count - 1 + 0)
      0 (st.m_row_count - 1) (by omega)
    refine ⟨by omega, by omega, by omega, by omega⟩

theorem CUP_C7_witness :
    CUP ⟨[]⟩ stC7 = CUP seqC7_11 stC7
    ∧ (CUP seqC7_9999 stC7).cursor_row = 23 ∧ (CUP seqC7_9999 stC7).cursor_col = 79
    ∧ 0 ≤ (CUP seqC7_9999 stC7).cursor_col
    ∧ (CUP seqC7_9999 stC7).cursor_col ≤ stC7.m_column_count - 1 := by
  have h := CUP_C7 seqC7_9999 stC7 (by decide) (by decide) (by decide)
  exact ⟨h.1, h.2.2.2.1, h.2.2.2.2.1, h.2.2.2.2.2.1, h.2.2.2.2.2.2.1⟩

/-- The `case 6:` (CPR) branch of `VteTerminalPrivate::DSR_ECMA` (vteseq.cc
lines 3946-3968): choose origin/rowmax from the scrolling region when
origin mode and the restriction are both active, subtract the origin from
the cursor row **before** clamping into [0, rowmax], and reply
`CSI rowval+1 ; clamped-col R`.  The handler mutates nothing, so the
result is the unchanged state paired with the two reply numbers. -/
def DSR_ECMA_6 (st : CursorTerm) : CursorTerm × (Int × Int) :=
  let origin :=
    if st.m_origin_mode ≠ 0 ∧ st.m_scrolling_restricted ≠ 0
    then st.m_scrolling_region_start else 0
  let rowmax :=
    if st.m_origin_mode ≠ 0 ∧ st.m_scrolling_restricted ≠ 0
    then st.m_scrolling_region_end else st.m_row_count - 1
  let rowval := CLAMP (st.cursor_row - st.insert_delta - origin) 0 rowmax
  (st, (rowval + 1, CLAMP (st.cursor_col + 1) 1 st.m_column_count))

/-- A 24×80 terminal, origin mode on, scrolling restricted to rows 3..6
(0-based 2..5), with the cursor on absolute row 10, column 0. -/
def stC5 : CursorTerm := ⟨24, 80, 10, 0, 0, 24, 1, 1, 2, 5⟩

/-- C5 counterexample: the claim says the reply row is clamped into the
bounds of the active region.  With the region covering 4 rows (1-based
relative rows 1..4) and the cursor below it, the code replies row 6: the
relative row is clamped into [0, region end] — the clamp happens after
subtracting the origin but still against the absolute end row — so the
reply points outside the active region. -/
theorem dsr_C5_counterexample :
    (DSR_ECMA_6 stC5).2.1 = 6
    ∧ stC5.m_scrolling_region_end - stC5.m_scrolling_region_start + 1 = 4
    ∧ ¬((DSR_ECMA_6 stC5).2.1
        ≤ stC5.m_scrolling_region_end - stC5.m_scrolling_region_start + 1) := by
  refine ⟨by decide, by decide, by decide⟩

/-- C5 amended: handling DSR (ECMA) with parameter 6 mutates no terminal
state and replies `CSI row ; col R` where row − 1 is the cursor row
relative to the scrolling-region origin when origin mode and the
restriction are both active (absolute otherwise), clamped into
[0, rowmax] where rowmax is the region's **end row** (the clamp is applied
after subtracting the origin, so the reply row may exceed the region's
height, but never rowmax + 1), and col is the 1-based cursor column
clamped into [1, C]. -/
theorem dsr_C5_amended (st : CursorTerm) (hC : 1 ≤ st.m_column_count)
    (hmax : 0 ≤ (if st.m_origin_mode ≠ 0 ∧ st.m_scrolling_restricted ≠ 0
      then st.m_scrolling_region_end else st.m_row_count - 1)) :
    (DSR_ECMA_6 st).1 = st
    ∧ (DSR_ECMA_6 st).2.1
        = CLAMP (st.cursor_row - st.insert_delta
            - (if st.m_origin_mode ≠ 0 ∧ st.m_scrolling_restricted ≠ 0
               then st.m_scrolling_region_start else 0)) 0
            (if st.m_origin_mode ≠ 0 ∧ st.m_scrolling_restricted ≠ 0
             then st.m_scrolling_region_end else st.m_row_count - 1) + 1
    ∧ (DSR_ECMA_6 st).2.2 = CLAMP (st.cursor_col + 1) 1 st.m_column_count
    ∧ 1 ≤ (DSR_ECMA_6 st).2.1
    ∧ (DSR_ECMA_6 st).2.1
        ≤ (if st.m_origin_mode ≠ 0 ∧ st.m_scrolling_restricted ≠ 0
           then st.m_scrolling_region_end else st.m_row_count - 1) + 1
    ∧ 1 ≤ (DSR_ECMA_6 st).2.2 ∧ (DSR_ECMA_6 st).2.2 ≤ st.m_column_count := by
  have h1 := CLAMP_mem (st.cursor_row - st.insert_delta
      - (if st.m_origin_mode ≠ 0 ∧ st.m_scrolling_restricted ≠ 0
         then st.m_scrolling_region_start else 0)) 0
      (if st.m_origin_mode ≠ 0 ∧ st.m_scrolling_restricted ≠ 0
       then st.m_scrolling_region_end else st.m_row_count - 1) hmax
  have h2 := CLAMP_mem (st.cursor_col + 1) 1 st.m_column_count hC
  have e1 : (DSR_ECMA_6 st).2.1
      = CLAMP (st.cursor_row - st.insert_delta
          - (if st.m_origin_mode ≠ 0 ∧ st.m_scrolling_restricted ≠ 0
             then st.m_scrolling_region_start else 0)) 0
          (if st.m_origin_mode ≠ 0 ∧ st.m_scrolling_restricted ≠ 0
           then st.m_scrolling_region_end else st.m_row_count - 1) + 1 := rfl
  have e2 : (DSR_ECMA_6 st).2.2 = CLAMP (st.cursor_col + 1) 1 st.m_column_count := rfl
  refine ⟨rfl, e1, e2, by omega, by omega, by omega, by omega⟩

theorem dsr_C5_amended_witness :
    (DSR_ECMA_6 stC5).1 = stC5
    ∧ 1 ≤ (DSR_ECMA_6 stC5).2.1
    ∧ (DSR_ECMA_6 stC5).2.1 ≤ stC5.m_scrolling_region_end + 1 := by
  have h := dsr_C5_amended stC5 (by decide) (by decide)
  exact ⟨h.1, h.2.2.2.1, by
    have := h.2.2.2.2.1
    simpa using this⟩

/-- Modelled from the spec: the `VteKeymode` enum values (vteinternal.hh is
not in the sources); only their distinctness matters. -/
def VTE_KEYMODE_NORMAL : Int := 0

/-- Modelled from the spec (see `VTE_KEYMODE_NORMAL`). -/
def VTE_KEYMODE_APPLICATION : Int := 1

/-- Modelled from the spec: the mouse-tracking enum (§4.6); only the
distinctness of the values matters. -/
def MOUSE_TRACKING_SEND_XY_ON_CLICK : Int := 1

/-- Modelled from the spec (see `MOUSE_TRACKING_SEND_XY_ON_CLICK`). -/
def MOUSE_TRACKING_SEND_XY_ON_BUTTON : Int := 2

/-- Modelled from the spec (see `MOUSE_TRACKING_SEND_XY_ON_CLICK`). -/
def MOUSE_TRACKING_HILITE_TRACKING : Int := 3

/-- Modelled from the spec (see `MOUSE_TRACKING_SEND_XY_ON_CLICK`). -/
def MOUSE_TRACKING_CELL_MOTION_TRACKING : Int := 4

/-- Modelled from the spec (see `MOUSE_TRACKING_SEND_XY_ON_CLICK`). -/
def MOUSE_TRACKING_ALL_MOTION_TRACKING : Int := 5

/-- The fields of `VteTerminalPrivate` the decset table points into with
`G_STRUCT_OFFSET` (vteseq.cc lines 557-715), as an explicit enum per the
spec's §9 remodelling note (never raw memory offsets).  All are gboolean
or int-valued, embedded as `Int`. -/
inductive PrivField
  | cursor_mode
  | reverse_mode
  | origin_mode
  | autowrap
  | mouse_tracking_mode
  | cursor_visible
  | deccolm_mode
  | keypad_mode
  | focus_tracking_mode
  | mouse_xterm_extension
  | alternate_screen_scroll
  | mouse_urxvt_extension
  | meta_sends_escape
  | bracketed_paste_mode
deriving DecidableEq, Repr

/-- The custom set/reset callback hooks of the decset table (vteseq.cc).
Modelled from the spec (§4.6, §9): their bodies act on the screen/ring/
hyperlink structures outside this model, so invoking one is recorded as an
event. -/
inductive DecHook
  | reset_mouse_smooth_scroll_delta
  | switch_normal_screen
  | switch_alternate_screen
  | restore_cursor
  | save_cursor
  | switch_normal_screen_and_restore_cursor
  | save_cursor_and_switch_alternate_screen
  | feed_focus_event_initial
deriving DecidableEq, Repr

/-- Observable external effects of the decset path: hook invocations and
the UI calls of the per-setting `switch` (vteseq.cc lines 807-861). -/
inductive DecEvent
  | hook (h : DecHook)
  | emit_resize_window (columns rows : Int)
  | invalidate_all
  | adjust_adjustments
  | apply_mouse_cursor
  | reset_scrollbar_and_repaint
deriving DecidableEq, Repr

/-- Whether an event is a set/reset hook invocation. -/
def DecEvent.isHookEv : DecEvent → Bool
  | DecEvent.hook _ => true
  | _ => false

/-- The state `decset` acts on: the cursor aggregate (for the home/clear
side effects of the per-setting switch), the table-managed mode fields,
the deleted-text flag, the DEC saved-settings map `m_dec_saved` and the
event log. -/
structure DecTerm where
  cursor : CursorTerm
  m_cursor_mode : Int
  m_reverse_mode : Int
  m_autowrap : Int
  m_mouse_tracking_mode : Int
  m_cursor_visible : Int
  m_deccolm_mode : Int
  m_keypad_mode : Int
  m_focus_tracking_mode : Int
  m_mouse_xterm_extension : Int
  m_alternate_screen_scroll : Int
  m_mouse_urxvt_extension : Int
  m_meta_sends_escape : Int
  m_bracketed_paste_mode : Int
  m_text_deleted_flag : Int
  m_dec_saved : List (Int × Bool)
  events : List DecEvent
deriving DecidableEq, Repr

/-- Read a table-managed field (`G_STRUCT_MEMBER_P` dereference). -/
def getField (st : DecTerm) : PrivField → Int
  | PrivField.cursor_mode => st.m_cursor_mode
  | PrivField.reverse_mode => st.m_reverse_mode
  | PrivField.origin_mode => st.cursor.m_origin_mode
  | PrivField.autowrap => st.m_autowrap
  | PrivField.mouse_tracking_mode => st.m_mouse_tracking_mode
  | PrivField.cursor_visible => st.m_cursor_visible
  | PrivField.deccolm_mode => st.m_deccolm_mode
  | PrivField.keypad_mode => st.m_keypad_mode
  | PrivField.focus_tracking_mode => st.m_focus_tracking_mode
  | PrivField.mouse_xterm_extension => st.m_mouse_xterm_extension
  | PrivField.alternate_screen_scroll => st.m_alternate_screen_scroll
  | PrivField.mouse_urxvt_extension => st.m_mouse_urxvt_extension
  | PrivField.meta_sends_escape => st.m_meta_sends_escape
  | PrivField.bracketed_paste_mode => st.m_bracketed_paste_mode

/-- Write a table-managed field (`G_STRUCT_MEMBER_P` store). -/
def setField (st : DecTerm) (f : PrivField) (v : Int) : DecTerm :=
  match f with
  | PrivField.cursor_mode => { st with m_cursor_mode := v }
  | PrivField.reverse_mode => { st with m_reverse_mode := v }
  | PrivField.origin_mode => { st with cursor := { st.cursor with m_origin_mode := v } }
  | PrivField.autowrap => { st with m_autowrap := v }
  | PrivField.mouse_tracking_mode => { st with m_mouse_tracking_mode := v }
  | PrivField.cursor_visible => { st with m_cursor_visible := v }
  | PrivField.deccolm_mode => { st with m_deccolm_mode := v }
  | PrivField.keypad_mode => { st with m_keypad_mode := v }
  | PrivField.focus_tracking_mode => { st with m_focus_tracking_mode := v }
  | PrivField.mouse_xterm_extension => { st with m_mouse_xterm_extension := v }
  | PrivField.alternate_screen_scroll => { st with m_alternate_screen_scroll := v }
  | PrivField.mouse_urxvt_extension => { st with m_mouse_urxvt_extension := v }
  | PrivField.meta_sends_escape => { st with m_meta_sends_escape := v }
  | PrivField.bracketed_paste_mode => { st with m_bracketed_paste_mode := v }

/-- One entry of the static decset table (`struct decset_t`, vteseq.cc
lines 511-520): setting id, boolean/int storage (the table has no
pointer-valued entries), off/on values and optional reset/set hooks. -/
structure decset_t where
  setting : Int
  boffset : Option PrivField
  ioffset : Option PrivField
  fvalue : Int
  tvalue : Int
  reset : Option DecHook
  set : Option DecHook
deriving DecidableEq, Repr

/-- The static decset table (vteseq.cc lines 557-715), in source order
(sorted by setting id, as the bsearch requires). -/
def decset_table : List decset_t := [
  ⟨1, none, some PrivField.cursor_mode, VTE_KEYMODE_NORMAL, VTE_KEYMODE_APPLICATION,
    none, none⟩,
  ⟨2, none, none, 0, 0, none, none⟩,
  ⟨3, none, none, 0, 1, none, none⟩,
  ⟨5, some PrivField.reverse_mode, none, 0, 1, none, none⟩,
  ⟨6, some PrivField.origin_mode, none, 0, 1, none, none⟩,
  ⟨7, some PrivField.autowrap, none, 0, 1, none, none⟩,
  ⟨8, none, none, 0, 0, none, none⟩,
  ⟨9, none, some PrivField.mouse_tracking_mode, 0, MOUSE_TRACKING_SEND_XY_ON_CLICK,
    some DecHook.reset_mouse_smooth_scroll_delta, some DecHook.reset_mouse_smooth_scroll_delta⟩,
  ⟨12, none, none, 0, 0, none, none⟩,
  ⟨25, some PrivField.cursor_visible, none, 0, 1, none, none⟩,
  ⟨30, none, none, 0, 0, none, none⟩,
  ⟨35, none, none, 0, 0, none, none⟩,
  ⟨40, some PrivField.deccolm_mode, none, 0, 1, none, none⟩,
  ⟨47, none, none, 0, 0,
    some DecHook.switch_normal_screen, some DecHook.switch_alternate_screen⟩,
  ⟨66, some PrivField.keypad_mode, none, VTE_KEYMODE_NORMAL, VTE_KEYMODE_APPLICATION,
    none, none⟩,
  ⟨67, none, none, 0, 0, none, none⟩,
  ⟨1000, none, some PrivField.mouse_tracking_mode, 0, MOUSE_TRACKING_SEND_XY_ON_BUTTON,
    some DecHook.reset_mouse_smooth_scroll_delta, some DecHook.reset_mouse_smooth_scroll_delta⟩,
  ⟨1001, none, some PrivField.mouse_tracking_mode, 0, MOUSE_TRACKING_HILITE_TRACKING,
    some DecHook.reset_mouse_smooth_scroll_delta, some DecHook.reset_mouse_smooth_scroll_delta⟩,
  ⟨1002, none, some PrivField.mouse_tracking_mode, 0, MOUSE_TRACKING_CELL_MOTION_TRACKING,
    some DecHook.reset_mouse_smooth_scroll_delta, some DecHook.reset_mouse_smooth_scroll_delta⟩,
  ⟨1003, none, some PrivField.mouse_tracking_mode, 0, MOUSE_TRACKING_ALL_MOTION_TRACKING,
    some DecHook.reset_mouse_smooth_scroll_delta, some DecHook.reset_mouse_smooth_scroll_delta⟩,
  ⟨1004, some PrivField.focus_tracking_mode, none, 0, 1,
    none, some DecHook.feed_focus_event_initial⟩,
  ⟨1006, some PrivField.mouse_xterm_extension, none, 0, 1, none, none⟩,
  ⟨1007, some PrivField.alternate_screen_scroll, none, 0, 1, none, none⟩,
  ⟨1010, none, none, 0, 0, none, none⟩,
  ⟨1011, none, none, 0, 0, none, none⟩,
  ⟨1015, some PrivField.mouse_urxvt_extension, none, 0, 1, none, none⟩,
  ⟨1035, none, none, 0, 0, none, none⟩,
  ⟨1036, some PrivField.meta_sends_escape, none, 0, 1, none, none⟩,
  ⟨1037, none, none, 0, 0, none, none⟩,
  ⟨1047, none, none, 0, 0,
    some DecHook.switch_normal_screen, some DecHook.switch_alternate_screen⟩,
  ⟨1048, none, none, 0, 0, some DecHook.restore_cursor, some DecHook.save_cursor⟩,
  ⟨1049, none, none, 0, 0,
    some DecHook.switch_normal_screen_and_restore_cursor,
    some DecHook.save_cursor_and_switch_alternate_screen⟩,
  ⟨2004, some PrivField.bracketed_paste_mode, none, 0, 1, none, none⟩]

/-- The `g_hash_table_lookup` on `m_dec_saved`: `GINT_TO_POINTER(FALSE)` is
NULL, so a stored false and an absent key both read back as unset — the
restore path's `set = (p != NULL)` is exactly `(lookup).getD false`. -/
def lookupSaved (saved : List (Int × Bool)) (setting : Int) : Option Bool :=
  (saved.find? (fun p => p.1 == setting)).map (fun p => p.2)

/-- The `g_hash_table_insert` on `m_dec_saved`: replace any previous entry. -/
def insertSaved (setting : Int) (v : Bool) (saved : List (Int × Bool)) :
    List (Int × Bool) :=
  (setting, v) :: saved.filter (fun p => p.1 != setting)

/-- Invoking a decset hook (see `DecHook`): recorded as an event. -/
def applyHook (h : DecHook) (st : DecTerm) : DecTerm :=
  { st with events := DecEvent.hook h :: st.events }

/-- The `VteTerminalPrivate::clear_screen` (vteseq.cc lines 253-270) lifted to
`DecTerm`: append a screen's worth of rows, move insert_delta to the
start of the cleared area, keep the cursor's relative row, flag the
change and repaint. -/
def clear_screenD (st : DecTerm) : DecTerm :=
  let row := st.cursor.cursor_row - st.cursor.insert_delta
  let initial := st.cursor.ring_next
  { st with
    cursor := { st.cursor with
      ring_next := st.cursor.ring_next + max st.cursor.m_row_count 0,
      insert_delta := initial,
      cursor_row := row + initial },
    m_text_deleted_flag := 1,
    events := DecEvent.invalidate_all :: DecEvent.adjust_adjustments :: st.events }

/-- The `VteTerminalPrivate::home_cursor` lifted to `DecTerm`. -/
def home_cursorD (st : DecTerm) : DecTerm :=
  { st with cursor := home_cursor st.cursor }

/-- The `VteTerminalPrivate::emit_resize_window` (external event). -/
def emit_resize_windowD (columns rows : Int) (st : DecTerm) : DecTerm :=
  { st with events := DecEvent.emit_resize_window columns rows :: st.events }

/-- The fixed secondary `switch (setting)` of `VteTerminalPrivate::decset`
(vteseq.cc lines 807-861), run regardless of the generic table write:
3 resizes/clears/homes only when DECCOLM mode is enabled; 5 repaints;
6 homes the cursor; 47/1047/1049 clear the (alternate) screen when
setting and reset scrollbar/repaint; 9/1000-1003 refresh the pointer
cursor. -/
def decset_switch (setting : Int) (set : Bool) (st : DecTerm) : DecTerm :=
  if setting = 3 then
    if st.m_deccolm_mode ≠ 0 then
      home_cursorD (clear_screenD
        (emit_resize_windowD (if set then 132 else 80) st.cursor.m_row_count st))
    else st
  else if setting = 5 then { st with events := DecEvent.invalidate_all :: st.events }
  else if setting = 6 then home_cursorD st
  else if setting = 47 ∨ setting = 1047 ∨ setting = 1049 then
    let st1 := if set then clear_screenD st else st
    { st1 with events := DecEvent.reset_scrollbar_and_repaint :: st1.events }
  else if setting = 9 ∨ setting = 1000 ∨ setting = 1001 ∨ setting = 1002
      ∨ setting = 1003 then
    { st with events := DecEvent.apply_mouse_cursor :: st.events }
  else st

/-- The `VteTerminalPrivate::decset(long setting, bool restore, bool save,
bool set)` (vteseq.cc lines 551-861): look the setting up in the sorted
table (unknown settings are ignored); on the ignore fast-path (off value
equals on value, no hooks) skip the whole do-while; otherwise `restore`
reads the saved value into `set`, `save` reads the live value into `set`
and persists it, and the apply path runs the on-hook, writes the field
and runs the off-hook; finally the per-setting switch always runs. -/
def decset (setting : Int) (restore save set : Bool) (st : DecTerm) : DecTerm :=
  match decset_table.find? (fun e => e.setting == setting) with
  | none => st
  | some key =>
    if key.fvalue == key.tvalue && key.set.isNone && key.reset.isNone then
      decset_switch setting set st
    else
      let set1 := if restore then (lookupSaved st.m_dec_saved setting).getD false else set
      let set2 :=
        if save then
          match key.boffset with
          | some f => decide (getField st f ≠ 0)
          | none =>
            match key.ioffset with
            | some f => decide (getField st f = key.tvalue)
            | none => set1
        else set1
      let st1 :=
        if save then { st with m_dec_saved := insertSaved setting set2 st.m_dec_saved }
        else st
      let st2 :=
        if save then st1
        else
          let stA := match key.set with
            | some h => if set2 then applyHook h st1 else st1
            | none => st1
          let stB := match key.boffset with
            | some f => setField stA f (if set2 then 1 else 0)
            | none =>
              match key.ioffset with
              | some f => setField stA f (if set2 then key.tvalue else key.fvalue)
              | none => stA
          match key.reset with
          | some h => if !set2 then applyHook h stB else stB
          | none => stB
      decset_switch setting set2 st2

theorem decset_switch_getField (setting : Int) (set : Bool) (st : DecTerm)
    (f : PrivField) : getField (decset_switch setting set st) f = getField st f := by
  simp only [decset_switch, home_cursorD, clear_screenD, emit_resize_windowD,
    home_cursor, set_cursor_coords, set_cursor_row, set_cursor_column]
  split_ifs <;> cases f <;> rfl

theorem decset_switch_saved (setting : Int) (set : Bool) (st : DecTerm) :
    (decset_switch setting set st).m_dec_saved = st.m_dec_saved := by
  simp only [decset_switch, home_cursorD, clear_screenD, emit_resize_windowD]
  split_ifs <;> rfl

theorem decset_switch_events (setting : Int) (set : Bool) (st : DecTerm)
    (ev : DecEvent) (hmem : ev ∈ (decset_switch setting set st).events)
    (hh : ev.isHookEv = true) : ev ∈ st.events := by
  cases ev with
  | hook h =>
    simp only [decset_switch, home_cursorD, clear_screenD,
      emit_resize_windowD] at hmem
    split_ifs at hmem <;> simpa using hmem
  | emit_resize_window c r => simp [DecEvent.isHookEv] at hh
  | invalidate_all => simp [DecEvent.isHookEv] at hh
  | adjust_adjustments => simp [DecEvent.isHookEv] at hh
  | apply_mouse_cursor => simp [DecEvent.isHookEv] at hh
  | reset_scrollbar_and_repaint => simp [DecEvent.isHookEv] at hh

/-- A terminal state with the cursor at (5,5), origin mode off, all modes
at their defaults and an empty saved-settings map. -/
def stC4 : DecTerm :=
  ⟨⟨24, 80, 5, 5, 0, 24, 0, 0, 0, 23⟩, 0, 0, 0, 0, 0, 0, 0, 0, 0, 0, 0, 0, 0, 0, [], []⟩

/-- C4 counterexample: saving setting 6 (origin mode, present in the table)
still runs the per-setting side-effect switch, which homes the cursor —
live terminal state changes.  And saving setting 2 (an ignore-fast-path
entry, also present in the table) stores nothing in the saved-settings
map.  Both refute the claim as stated. -/
theorem decset_C4_counterexample :
    (decset_table.find? (fun e => e.setting == 6)).isSome = true
    ∧ (decset 6 false true false stC4).cursor.cursor_row = 0
    ∧ stC4.cursor.cursor_row = 5
    ∧ ¬(decset 6 false true false stC4).cursor = stC4.cursor
    ∧ (decset_table.find? (fun e => e.setting == 2)).isSome = true
    ∧ (decset 2 false true false stC4).m_dec_saved = stC4.m_dec_saved := by
  refine ⟨by decide, by decide, by decide, by decide, by decide, by decide⟩

/-- The live value the decset save path reads for a table entry: a bool
field compared against 0, an int field against its on-value, and the
incoming `set` argument when the entry has no storage (vteseq.cc lines
767-776). -/
def decset_read_live (e : decset_t) (st : DecTerm) (set : Bool) : Bool :=
  match e.boffset with
  | some f => decide (getField st f ≠ 0)
  | none =>
    match e.ioffset with
    | some f => decide (getField st f = e.tvalue)
    | none => set

/-- C4 amended: for every setting present in the table, decset with
save=true leaves every table-managed flag/int field unchanged and runs no
set/reset hook; unless the entry is on the ignore fast-path (off value =
on value and no hooks — then nothing at all is saved), it reads the
current live value (bool field compared against 0, int field against its
on-value, no storage ⇒ the incoming set argument, false here) and
persists it into the saved-settings map keyed by the setting id; but the
fixed per-setting side-effect switch still runs — e.g. saving setting 6
homes the cursor. -/
theorem decset_C4_amended (st : DecTerm) (setting : Int) (e : decset_t)
    (hfind : decset_table.find? (fun x => x.setting == setting) = some e) :
    (∀ f : PrivField,
      getField (decset setting false true false st) f = getField st f)
    ∧ (∀ ev ∈ (decset setting false true false st).events,
        ev.isHookEv = true → ev ∈ st.events)
    ∧ ((e.fvalue == e.tvalue && e.set.isNone && e.reset.isNone) = true →
        (decset setting false true false st).m_dec_saved = st.m_dec_saved)
    ∧ ((e.fvalue == e.tvalue && e.set.isNone && e.reset.isNone) = false →
        (decset setting false true false st).m_dec_saved
          = insertSaved setting (decset_read_live e st false) st.m_dec_saved)
    ∧ (setting = 6 →
        (decset setting false true false st).cursor = home_cursor st.cursor) := by
  by_cases hign : (e.fvalue == e.tvalue && e.set.isNone && e.reset.isNone) = true
  · have hstep : decset setting false true false st = decset_switch setting false st := by
      unfold decset
      rw [hfind]
      dsimp only
      rw [if_pos hign]
    refine ⟨?_, ?_, ?_, ?_, ?_⟩
    · intro f
      rw [hstep]
      exact decset_switch_getField setting false st f
    · intro ev hmem hh
      rw [hstep] at hmem
      exact decset_switch_events setting false st ev hmem hh
    · intro _
      rw [hstep]
      exact decset_switch_saved setting false st
    · intro hne
      rw [hign] at hne
      simp at hne
    · intro h6
      exfalso
      subst h6
      have h6v : decset_table.find? (fun x => x.setting == 6)
          = some ⟨6, some PrivField.origin_mode, none, 0, 1, none, none⟩ := by decide
      rw [hfind] at h6v
      have he : e = ⟨6, some PrivField.origin_mode, none, 0, 1, none, none⟩ :=
        Option.some.inj h6v
      rw [he] at hign
      simp at hign
  · have hign' : (e.fvalue == e.tvalue && e.set.isNone && e.reset.isNone) = false := by
      revert hign
      cases e.fvalue == e.tvalue && e.set.isNone && e.reset.isNone <;> simp
    have hstep : decset setting false true false st
        = decset_switch setting (decset_read_live e st false)
            { st with m_dec_saved :=
                insertSaved setting (decset_read_live e st false) st.m_dec_saved } := by
      unfold decset decset_read_live
      rw [hfind]
      dsimp only
      rw [if_neg (by simp [hign'])]
      simp
    refine ⟨?_, ?_, ?_, ?_, ?_⟩
    · intro f
      rw [hstep, decset_switch_getField]
      cases e.boffset with
      | some fb => rfl
      | none => cases e.ioffset <;> rfl
    · intro ev hmem hh
      rw [hstep] at hmem
      have hin := decset_switch_events _ _ _ ev hmem hh
      simpa using hin
    · intro hyes
      rw [hign'] at hyes
      exact absurd hyes (by simp)
    · intro _
      rw [hstep, decset_switch_saved]
    · intro h6
      subst h6
      have h6v : decset_table.find? (fun x => x.setting == 6)
          = some ⟨6, some PrivField.origin_mode, none, 0, 1, none, none⟩ := by decide
      rw [hfind] at h6v
      have he : e = ⟨6, some PrivField.origin_mode, none, 0, 1, none, none⟩ :=
        Option.some.inj h6v
      rw [hstep, he]
      unfold decset_switch
      rw [if_neg (by decide), if_neg (by decide), if_pos rfl]
      rfl

theorem decset_C4_amended_witness :
    (∀ f : PrivField, getField (decset 6 false true false stC4) f = getField stC4 f)
    ∧ (decset 6 false true false stC4).m_dec_saved
        = insertSaved 6 false stC4.m_dec_saved
    ∧ (decset 6 false true false stC4).cursor = home_cursor stC4.cursor := by
  have h := decset_C4_amended stC4 6 ⟨6, some PrivField.origin_mode, none, 0, 1, none, none⟩
    (by decide)
  exact ⟨h.1, by
    have := h.2.2.2.1 (by decide)
    simpa using this, h.2.2.2.2 rfl⟩

/-- The `strncmp(s, needle, needle-length) == 0`: whether `needle` is a prefix
of `s`. -/
def startsWith : List Char → List Char → Bool
  | _, [] => true
  | [], _ :: _ => false
  | c :: t, d :: u => c == d && startsWith t u

/-- The `strstr(hay, needle)` as the index of the first occurrence of `needle`
in `hay`, or `none`. -/
def strstrIdx (hay needle : List Char) : Option Nat :=
  if startsWith hay needle then some 0
  else
    match hay with
    | [] => none
    | _ :: t => (strstrIdx t needle).map (fun n => n + 1)

/-- The id-parameter extraction of
`VteTerminalPrivate::set_current_hyperlink` (vteseq.cc lines 1610-1619):
a bare `id=` prefix, or an `:id=` key anywhere in the colon-separated
parameter list. -/
def hyperlink_get_id (hyperlink_params : Option (List Char)) : Option (List Char) :=
  match hyperlink_params with
  | none => none
  | some p =>
    if startsWith p ['i', 'd', '='] then some (p.drop 3)
    else
      match strstrIdx p [':', 'i', 'd', '='] with
      | some n => some (p.drop (n + 4))
      | none => none

/-- Truncation via `strchrnul` (vteseq.cc line 1621): writing NUL at the
first colon cuts the id there. -/
def truncateAtColon (id : List Char) : List Char :=
  id.takeWhile (fun c => c != ':')

/-- Modelled from the spec: vtedefines.hh is not in the sources; the spec
only requires a maximum uri length (DoS mitigation). -/
def VTE_HYPERLINK_URI_LENGTH_MAX : Nat := 2083

/-- Modelled from the spec (see `VTE_HYPERLINK_URI_LENGTH_MAX`). -/
def VTE_HYPERLINK_ID_LENGTH_MAX : Nat := 250

/-- The decimal rendering of the auto-id counter (`sprintf(idbuf, ":%ld",
m_hyperlink_auto_id++)`, vteseq.cc line 1648), without the leading colon:
the base-10 digits of the counter.  Modelled from the spec: sprintf is
libc; the counter only ever increments from its initial value, so it is a
`Nat` here. -/
def decChars (n : Nat) : List Char :=
  if n = 0 then ['0'] else (Nat.digits 10 n).reverse.map (fun d => Char.ofNat (48 + d))

/-- Decimal decoding, inverse to `decChars`. -/
def decOfChars (cs : List Char) : Nat :=
  Nat.ofDigits 10 ((cs.map (fun c => c.toNat - 48)).reverse)

theorem char_toNat_ofNat48 (d : Nat) (hd : d < 10) :
    (Char.ofNat (48 + d)).toNat = 48 + d := by
  interval_cases d <;> decide

theorem decOfChars_decChars (n : Nat) : decOfChars (decChars n) = n := by
  by_cases hn : n = 0
  · subst hn
    decide
  · have hlt : ∀ d ∈ Nat.digits 10 n, d < 10 :=
      fun d hd => Nat.digits_lt_base (by norm_num) hd
    simp only [decOfChars, decChars, if_neg hn, List.map_map, List.map_reverse,
      List.reverse_reverse]
    have hmap : (Nat.digits 10 n).map ((fun c => c.toNat - 48) ∘ (fun d => Char.ofNat (48 + d)))
        = Nat.digits 10 n := by
      apply List.map_congr_left ?_ |>.trans (List.map_id _)
      intro d hd
      simp [Function.comp, char_toNat_ofNat48 d (hlt d hd)]
    rw [hmap]
    exact Nat.ofDigits_digits 10 n

theorem decChars_injective (a b : Nat) (h : decChars a = decChars b) : a = b := by
  have := congrArg decOfChars h
  rwa [decOfChars_decChars, decOfChars_decChars] at this

theorem truncateAtColon_no_colon (l : List Char) : ':' ∉ truncateAtColon l := by
  induction l with
  | nil => simp [truncateAtColon]
  | cons c t ih =>
    by_cases hc : (c != ':') = true
    · simp only [truncateAtColon, List.takeWhile_cons, hc]
      simp only [truncateAtColon] at ih
      intro hmem
      rcases List.mem_cons.mp hmem with h1 | h2
      · rw [h1] at hc
        simp at hc
      · exact ih h2
    · simp only [truncateAtColon, List.takeWhile_cons]
      rw [Bool.not_eq_true] at hc
      rw [hc]
      simp

/-- The state `set_current_hyperlink` acts on: the allow flag, the
auto-id counter, the ring's hyperlink pool (modelled per spec §9 as a
get-or-create key table; index 0 means no hyperlink) and the current
hyperlink index of `m_defaults.attr`. -/
structure HyperTerm where
  m_allow_hyperlink : Bool
  m_hyperlink_auto_id : Nat
  hyperlink_pool : List (List Char)
  hyperlink_idx : Nat
deriving DecidableEq, Repr

/-- Modelled from the spec (§9): `_vte_ring_get_hyperlink_idx` is the
ring's get-or-create-index capability; a NULL key yields index 0, a
present key its index, a new key a fresh index. -/
def get_hyperlink_idx (pool : List (List Char)) (key : Option (List Char)) :
    List (List Char) × Nat :=
  match key with
  | none => (pool, 0)
  | some k =>
    match pool.findIdx? (fun x => x == k) with
    | some i => (pool, i + 1)
    | none => (pool ++ [k], pool.length + 1)

/-- The id string a `set_current_hyperlink` call stores into the `"id;uri"`
key: the truncated, length-capped explicit id when nonempty, else the
auto-generated `:counter` id; `none` when the call sets no hyperlink
(disallowed, or missing/empty uri). -/
def hyperlink_used_id (hyperlink_params uri : Option (List Char)) (st : HyperTerm) :
    Option (List Char) :=
  if !st.m_allow_hyperlink then none
  else
    let id1 := (hyperlink_get_id hyperlink_params).map truncateAtColon
    let uri1 := match uri with
      | some u => if u.length > VTE_HYPERLINK_URI_LENGTH_MAX then some [] else some u
      | none => none
    let id2 := match id1 with
      | some i => if i.length > VTE_HYPERLINK_ID_LENGTH_MAX then some [] else some i
      | none => none
    match uri1 with
    | some u =>
      if u ≠ [] then
        match id2 with
        | some i =>
          if i ≠ [] then some i else some (':' :: decChars st.m_hyperlink_auto_id)
        | none => some (':' :: decChars st.m_hyperlink_auto_id)
      else none
    | none => none

/-- The `VteTerminalPrivate::set_current_hyperlink` (vteseq.cc lines
1599-1666): bail when hyperlinks are disallowed; extract and truncate the
id; blank overlong uri/id; with a nonempty uri, auto-generate a `:counter`
id when none remains (incrementing the counter) and request an index for
the `"id;uri"` key; with an empty/missing uri request the no-hyperlink
index; store the index. -/
def set_current_hyperlink (hyperlink_params uri : Option (List Char)) (st : HyperTerm) :
    HyperTerm :=
  if !st.m_allow_hyperlink then st
  else
    let id1 := (hyperlink_get_id hyperlink_params).map truncateAtColon
    let uri1 := match uri with
      | some u => if u.length > VTE_HYPERLINK_URI_LENGTH_MAX then some [] else some u
      | none => none
    let id2 := match id1 with
      | some i => if i.length > VTE_HYPERLINK_ID_LENGTH_MAX then some [] else some i
      | none => none
    match uri1 with
    | some u =>
      if u ≠ [] then
        let p :=
          match id2 with
          | some i =>
            if i ≠ [] then (i, st.m_hyperlink_auto_id)
            else (':' :: decChars st.m_hyperlink_auto_id, st.m_hyperlink_auto_id + 1)
          | none => (':' :: decChars st.m_hyperlink_auto_id, st.m_hyperlink_auto_id + 1)
        let r := get_hyperlink_idx st.hyperlink_pool (some (p.1 ++ ';' :: u))
        { st with hyperlink_pool := r.1, hyperlink_idx := r.2, m_hyperlink_auto_id := p.2 }
      else
        let r := get_hyperlink_idx st.hyperlink_pool none
        { st with hyperlink_pool := r.1, hyperlink_idx := r.2 }
    | none =>
      let r := get_hyperlink_idx st.hyperlink_pool none
      { st with hyperlink_pool := r.1, hyperlink_idx := r.2 }

/-- C10: an explicit OSC 8 id is truncated at the first colon and so never
contains one; every auto-generated id begins with a colon followed by the
counter's digits; hence an auto-generated id can never equal a (nonempty)
explicit id; and two hyperlinks created consecutively without explicit
ids receive distinct id strings even for identical uris, because the
counter strictly increases and its decimal rendering is injective. -/
theorem hyperlink_C10 :
    (∀ p i, hyperlink_get_id p = some i → ':' ∉ truncateAtColon i)
    ∧ (∀ c : Nat, (':' :: decChars c).head? = some ':')
    ∧ (∀ (c : Nat) (i : List Char), ':' ∉ i → (':' :: decChars c) ≠ i)
    ∧ (∀ (st : HyperTerm) (u : List Char),
        st.m_allow_hyperlink = true → u ≠ [] →
        ¬(u.length > VTE_HYPERLINK_URI_LENGTH_MAX) →
        hyperlink_used_id none (some u) st = some (':' :: decChars st.m_hyperlink_auto_id)
        ∧ (set_current_hyperlink none (some u) st).m_hyperlink_auto_id
            = st.m_hyperlink_auto_id + 1
        ∧ (set_current_hyperlink none (some u) st).m_allow_hyperlink = true
        ∧ hyperlink_used_id none (some u) st
            ≠ hyperlink_used_id none (some u) (set_current_hyperlink none (some u) st)) := by
  refine ⟨?_, fun c => rfl, ?_, ?_⟩
  · intro p i _
    exact truncateAtColon_no_colon i
  · intro c i hno heq
    rw [← heq] at hno
    exact hno (List.mem_cons_self ':' _)
  · intro st u hallow hne hlen
    have hid : hyperlink_get_id none = none := rfl
    have hused : hyperlink_used_id none (some u) st
        = some (':' :: decChars st.m_hyperlink_auto_id) := by
      simp only [hyperlink_used_id, hallow, Bool.not_true, Bool.false_eq_true,
        if_false, hid, if_neg hlen]
      rw [if_pos hne]
      rfl
    have hcounter : (set_current_hyperlink none (some u) st).m_hyperlink_auto_id
        = st.m_hyperlink_auto_id + 1 := by
      simp only [set_current_hyperlink, hallow, Bool.not_true, Bool.false_eq_true,
        if_false, hid, if_neg hlen]
      rw [if_pos hne]
      rfl
    have hallow' : (set_current_hyperlink none (some u) st).m_allow_hyperlink = true := by
      simp only [set_current_hyperlink, hallow, Bool.not_true, Bool.false_eq_true,
        if_false, hid, if_neg hlen]
      rw [if_pos hne]
    have hused' : hyperlink_used_id none (some u) (set_current_hyperlink none (some u) st)
        = some (':' :: decChars (st.m_hyperlink_auto_id + 1)) := by
      have h2 : hyperlink_used_id none (some u) (set_current_hyperlink none (some u) st)
          = some (':' :: decChars
              (set_current_hyperlink none (some u) st).m_hyperlink_auto_id) := by
        simp only [hyperlink_used_id, hallow', Bool.not_true, Bool.false_eq_true,
          if_false, hid, if_neg hlen]
        rw [if_pos hne]
        rfl
      rw [h2, hcounter]
    refine ⟨hused, hcounter, hallow', ?_⟩
    rw [hused, hused']
    intro hcontra
    have h3 := Option.some.inj hcontra
    have h4 : decChars st.m_hyperlink_auto_id = decChars (st.m_hyperlink_auto_id + 1) :=
      List.cons.inj h3 |>.2
    have := decChars_injective _ _ h4
    omega

theorem hyperlink_C10_witness :
    hyperlink_used_id none (some ['u']) ⟨true, 7, [], 0⟩ = some [':', '7']
    ∧ (set_current_hyperlink none (some ['u']) ⟨true, 7, [], 0⟩).m_hyperlink_auto_id = 8
    ∧ hyperlink_used_id none (some ['u']) ⟨true, 7, [], 0⟩
        ≠ hyperlink_used_id none (some ['u'])
            (set_current_hyperlink none (some ['u']) ⟨true, 7, [], 0⟩) := by
  have h := (hyperlink_C10).2.2.2 ⟨true, 7, [], 0⟩ ['u'] rfl (by decide) (by decide)
  refine ⟨by
    have h1 := h.1
    simpa [decChars] using h1, h.2.1, h.2.2.2⟩
